import Mathlib

/-!
# Verification of the datepicker calendar logic

Shallow embedding of the calendar computations of `src/lib.rs`
(a fork of the `egui_extras` datepicker):

* `month_data` — the calendar-grid builder (lines 16–37),
* `DatePickerPopupState.last_day_of_month` — the probing month-length
  computation (lines 234–242),
* the arrow / combo-box / calendar-cell mutations of the popup state
  performed inside `DatePickerPopup::draw`, and the save/cancel step
  that commits the popup state to the caller-owned selection.

Dates are modelled as proleptic-Gregorian `(year, month, day)` triples with
an unbounded integer year: chrono's finite year range (an implementation
detail of its packed representation) is abstracted away, so the checked
day increment/decrement used by the grid walk is total.  The day-number
function `daysFromCivil` (the standard civil-from-days count, days since
1970-01-01) models chrono's date line and yields weekday and ISO-8601 week
numbers exactly as chrono computes them.
-/

set_option maxHeartbeats 1600000

namespace DatePicker

/-- Proleptic-Gregorian leap-year test, as in chrono. -/
def isLeapYear (y : Int) : Bool :=
  y % 4 == 0 && (y % 100 != 0 || y % 400 == 0)

/-- Number of days of month `m` of year `y` (chrono's month lengths). -/
def daysInMonth (y : Int) (m : Nat) : Nat :=
  if m = 2 then (if isLeapYear y then 29 else 28)
  else if m = 4 ∨ m = 6 ∨ m = 9 ∨ m = 11 then 30
  else 31

/-- Model of `chrono::NaiveDate`: a plain (year, month, day) triple.
Only triples satisfying `NaiveDate.valid` denote calendar dates. -/
structure NaiveDate where
  year : Int
  month : Nat
  day : Nat
deriving DecidableEq, Repr

/-- The triple denotes a real proleptic-Gregorian calendar date. -/
def NaiveDate.valid (d : NaiveDate) : Prop :=
  1 ≤ d.month ∧ d.month ≤ 12 ∧ 1 ≤ d.day ∧ d.day ≤ daysInMonth d.year d.month

instance (d : NaiveDate) : Decidable d.valid := by
  unfold NaiveDate.valid; infer_instance

/-- Embedding of `chrono::NaiveDate::from_ymd_opt` (the finite year range of
chrono is abstracted to all integers). -/
def fromYmdOpt (y : Int) (m d : Nat) : Option NaiveDate :=
  if (NaiveDate.mk y m d).valid then some (NaiveDate.mk y m d) else none

/-- Embedding of `checked_add_signed(Duration::days(1))`: the next calendar
day.  Total here because the year is unbounded in the model. -/
def succDate (d : NaiveDate) : NaiveDate :=
  if d.day < daysInMonth d.year d.month then ⟨d.year, d.month, d.day + 1⟩
  else if d.month < 12 then ⟨d.year, d.month + 1, 1⟩
  else ⟨d.year + 1, 1, 1⟩

/-- Embedding of `checked_sub_signed(Duration::days(1))`: the previous
calendar day. -/
def predDate (d : NaiveDate) : NaiveDate :=
  if 1 < d.day then ⟨d.year, d.month, d.day - 1⟩
  else if 1 < d.month then ⟨d.year, d.month - 1, daysInMonth d.year (d.month - 1)⟩
  else ⟨d.year - 1, 12, 31⟩

/-- Era/year-of-era day count of Hinnant's civil calendar algorithm: the
number of days contributed by whole (shifted) years up to shifted year `y`. -/
def doeBase (y : Int) : Int :=
  let era : Int := y / 400
  let yoe : Int := y - era * 400
  era * 146097 + yoe * 365 + yoe / 4 - yoe / 100

/-- Day number of a date: days since 1970-01-01 (negative before), the
standard `days_from_civil` count.  This models chrono's internal date line,
from which weekday and ISO week are derived. -/
def daysFromCivil (dt : NaiveDate) : Int :=
  let y : Int := if dt.month ≤ 2 then dt.year - 1 else dt.year
  let mp : Int := if dt.month ≤ 2 then (dt.month : Int) + 9 else (dt.month : Int) - 3
  doeBase y + (153 * mp + 2) / 5 + (dt.day : Int) - 1 - 719468

/-- chrono's `Weekday::num_days_from_monday`: Monday ↦ 0, …, Sunday ↦ 6.
1970-01-01 was a Thursday (↦ 3). -/
def weekdayNum (d : NaiveDate) : Nat :=
  ((daysFromCivil d + 3) % 7).toNat

/-- chrono's `ordinal`: the 1-based day of the year. -/
def dayOfYear (d : NaiveDate) : Nat :=
  (match d.month with
   | 1 => 0 | 2 => 31 | 3 => 59 | 4 => 90 | 5 => 120 | 6 => 151 | 7 => 181
   | 8 => 212 | 9 => 243 | 10 => 273 | 11 => 304 | _ => 334)
  + (if 3 ≤ d.month ∧ isLeapYear d.year = true then 1 else 0) + d.day

/-- Weekday (0 = Monday) of January 1st of year `y`. -/
def jan1Weekday (y : Int) : Nat := weekdayNum ⟨y, 1, 1⟩

/-- Number of ISO-8601 weeks of year `y` (53 iff Jan 1 is a Thursday, or the
year is leap and Jan 1 is a Wednesday; otherwise 52). -/
def isoWeeksInYear (y : Int) : Nat :=
  if jan1Weekday y = 3 ∨ (isLeapYear y = true ∧ jan1Weekday y = 2) then 53 else 52

/-- ISO-8601 week number (1–53): the value of chrono's `iso_week().week()`. -/
def isoWeek (d : NaiveDate) : Nat :=
  let w := weekdayNum d + 1
  let week0 := (dayOfYear d + 10 - w) / 7
  if week0 = 0 then isoWeeksInYear (d.year - 1)
  else if week0 = 53 ∧ isoWeeksInYear d.year = 52 then 1
  else week0

/-- chrono's derived `Ord` on `NaiveDate` (lexicographic on year, month, day,
as chrono orders by (year, ordinal)). -/
def dateLt (a b : NaiveDate) : Prop :=
  a.year < b.year ∨
    (a.year = b.year ∧ (a.month < b.month ∨ (a.month = b.month ∧ a.day < b.day)))

instance (a b : NaiveDate) : Decidable (dateLt a b) := by
  unfold dateLt; infer_instance

/-- A row of the calendar grid, `struct Week` of the source: the ISO week
number (a `u8` in the source, hence the reduction mod 256 where it is
computed) and the days of the row. -/
structure Week where
  number : Nat
  days : List NaiveDate
deriving DecidableEq, Repr

/-- The backward walk of `month_data` from the first of the month to the
Monday on or before it.  The source's `while` loop always terminates within
6 steps; `fuel` bounds the remaining steps and 7 is shown sufficient. -/
def backToMonday : Nat → NaiveDate → NaiveDate
  | 0, d => d
  | fuel + 1, d => if weekdayNum d ≠ 0 then backToMonday fuel (predDate d) else d

/-- The week-collecting loop of `month_data`: running day `start`, the first
of the target month, the partially built row and the finished rows.  The
source's `while` loop runs at most 42 times; `fuel` bounds the remaining
iterations and 64 is shown sufficient. -/
def monthDataLoop : Nat → NaiveDate → NaiveDate → List NaiveDate → List Week → List Week
  | 0, _, _, _, weeks => weeks
  | fuel + 1, start, first, week, weeks =>
    if dateLt start first ∨ start.month = first.month ∨ weekdayNum start ≠ 0 then
      if weekdayNum start = 6 then
        monthDataLoop fuel (succDate start) first []
          (weeks ++ [⟨isoWeek start % 256, week ++ [start]⟩])
      else
        monthDataLoop fuel (succDate start) first (week ++ [start]) weeks
    else weeks

/-- Embedding of `month_data` (src/lib.rs lines 16–37).  `none` models the
panic of the initial `from_ymd_opt(year, month, 1).expect(..)`; the checked
date steps inside the walk are total in the unbounded-year model. -/
def month_data (year : Int) (month : Nat) : Option (List Week) :=
  (fromYmdOpt year month 1).map fun first =>
    monthDataLoop 64 (backToMonday 7 first) first [] []

/-- chrono's smallest representable year: `NaiveDate::MIN` is January 1 of
this year (the 13-bit packed year bound `i32::MIN >> 13` plus one year of
internal headroom). -/
def MIN_YEAR : Int := -262143

/-- chrono's largest representable year: `NaiveDate::MAX` is December 31 of
this year (the 13-bit packed year bound `i32::MAX >> 13` minus one year of
internal headroom). -/
def MAX_YEAR : Int := 262142

/-- Range-faithful `chrono::NaiveDate::from_ymd_opt`: also `none` when the
year falls outside chrono's representable range. -/
def fromYmdOptChecked (y : Int) (m d : Nat) : Option NaiveDate :=
  if (NaiveDate.mk y m d).valid ∧ MIN_YEAR ≤ y ∧ y ≤ MAX_YEAR then some (NaiveDate.mk y m d)
  else none

/-- Range-faithful `checked_add_signed(Duration::days(1))`: `none` when the
next day would leave chrono's representable range (i.e. past
`NaiveDate::MAX` = (MAX_YEAR, 12, 31)). -/
def checkedSuccDate (d : NaiveDate) : Option NaiveDate :=
  if MIN_YEAR ≤ (succDate d).year ∧ (succDate d).year ≤ MAX_YEAR then some (succDate d)
  else none

/-- Range-faithful `checked_sub_signed(Duration::days(1))`: `none` when the
previous day would leave chrono's representable range (i.e. before
`NaiveDate::MIN` = (MIN_YEAR, 1, 1)). -/
def checkedPredDate (d : NaiveDate) : Option NaiveDate :=
  if MIN_YEAR ≤ (predDate d).year ∧ (predDate d).year ≤ MAX_YEAR then some (predDate d)
  else none

/-- The backward walk of `month_data` with the range-faithful date step:
`none` models the `unwrap` panic of `checked_sub_signed` (src/lib.rs line
20). -/
def backToMondayChecked : Nat → NaiveDate → Option NaiveDate
  | 0, d => some d
  | fuel + 1, d =>
    if weekdayNum d ≠ 0 then (checkedPredDate d).bind (backToMondayChecked fuel) else some d

/-- The week-collecting loop of `month_data` with the range-faithful date
step: `none` models the `unwrap` panic of `checked_add_signed` (src/lib.rs
line 33). -/
def monthDataLoopChecked :
    Nat → NaiveDate → NaiveDate → List NaiveDate → List Week → Option (List Week)
  | 0, _, _, _, weeks => some weeks
  | fuel + 1, start, first, week, weeks =>
    if dateLt start first ∨ start.month = first.month ∨ weekdayNum start ≠ 0 then
      if weekdayNum start = 6 then
        (checkedSuccDate start).bind fun next =>
          monthDataLoopChecked fuel next first []
            (weeks ++ [⟨isoWeek start % 256, week ++ [start]⟩])
      else
        (checkedSuccDate start).bind fun next =>
          monthDataLoopChecked fuel next first (week ++ [start]) weeks
    else some weeks

/-- Embedding of `month_data` with chrono's representable year range kept:
`none` models any panic — the initial `from_ymd_opt(year, month, 1)`
`expect`, or an `unwrap` of the checked day steps of either walk. -/
def month_dataChecked (year : Int) (month : Nat) : Option (List Week) :=
  (fromYmdOptChecked year month 1).bind fun first =>
    (backToMondayChecked 7 first).bind fun start =>
      monthDataLoopChecked 64 start first [] []

/-- The state persisted by the popup, `struct DatePickerPopupState` of the
source (the `setup` flag records whether the state was initialised from the
caller's selection). -/
structure DatePickerPopupState where
  year : Int
  month : Nat
  day : Nat
  setup : Bool
deriving DecidableEq, Repr

/-- chrono's `NaiveDate::with_day`: replace the day, `none` if the new day
is not valid for the date's month and year. -/
def withDay (d : NaiveDate) (day : Nat) : Option NaiveDate :=
  if 1 ≤ day ∧ day ≤ daysInMonth d.year d.month then some ⟨d.year, d.month, day⟩ else none

/-- Embedding of `DatePickerPopupState::last_day_of_month` (src/lib.rs lines
234–242): probe day 31, then 30, then 29 via `with_day`, else 28.  The
`from_ymd_opt(year, month, 1).expect(..)` of the source is the bare triple
here; its success under the state invariant is proved separately. -/
def DatePickerPopupState.last_day_of_month (s : DatePickerPopupState) : Nat :=
  let date : NaiveDate := ⟨s.year, s.month, 1⟩
  ((((withDay date 31).map fun _ => 31).orElse fun _ =>
      ((withDay date 30).map fun _ => 30).orElse fun _ =>
        (withDay date 29).map fun _ => 29).getD 28)

/-- The cursor invariant: the popup state's (year, month, day) triple denotes
a constructible calendar date. -/
def DatePickerPopupState.validCursor (s : DatePickerPopupState) : Prop :=
  1 ≤ s.month ∧ s.month ≤ 12 ∧ 1 ≤ s.day ∧ s.day ≤ daysInMonth s.year s.month

instance (s : DatePickerPopupState) : Decidable s.validCursor := by
  unfold DatePickerPopupState.validCursor; infer_instance

/-- The `<<<` arrow of `DatePickerPopup::draw`: subtract one year, then
clamp the day (src/lib.rs lines 376–387). -/
def subOneYear (s : DatePickerPopupState) : DatePickerPopupState :=
  let s1 := { s with year := s.year - 1 }
  { s1 with day := min s1.day s1.last_day_of_month }

/-- The `<<` arrow: subtract one month with base-12 rollover, then clamp the
day (src/lib.rs lines 392–407). -/
def subOneMonth (s : DatePickerPopupState) : DatePickerPopupState :=
  let s1 := { s with month := s.month - 1 }
  let s2 := if s1.month = 0 then { s1 with month := 12, year := s1.year - 1 } else s1
  { s2 with day := min s2.day s2.last_day_of_month }

/-- The `<` arrow: subtract one day, rolling past day 1 to the last day of
the previous month (src/lib.rs lines 412–425). -/
def subOneDay (s : DatePickerPopupState) : DatePickerPopupState :=
  let s1 := { s with day := s.day - 1 }
  if s1.day = 0 then
    let s2 := { s1 with month := s1.month - 1 }
    let s3 := if s2.month = 0 then { s2 with year := s2.year - 1, month := 12 } else s2
    { s3 with day := s3.last_day_of_month }
  else s1

/-- The `>` arrow: add one day, rolling past the last day of the month to
day 1 of the next month (src/lib.rs lines 430–443). -/
def addOneDay (s : DatePickerPopupState) : DatePickerPopupState :=
  let s1 := { s with day := s.day + 1 }
  if s1.day > s1.last_day_of_month then
    let s2 := { s1 with day := 1, month := s1.month + 1 }
    if s2.month > 12 then { s2 with month := 1, year := s2.year + 1 } else s2
  else s1

/-- The `>>` arrow: add one month with base-12 rollover, then clamp the day
(src/lib.rs lines 448–459). -/
def addOneMonth (s : DatePickerPopupState) : DatePickerPopupState :=
  let s1 := { s with month := s.month + 1 }
  let s2 := if s1.month > 12 then { s1 with month := 1, year := s1.year + 1 } else s1
  { s2 with day := min s2.day s2.last_day_of_month }

/-- The `>>>` arrow: add one year, then clamp the day (src/lib.rs lines
464–471). -/
def addOneYear (s : DatePickerPopupState) : DatePickerPopupState :=
  let s1 := { s with year := s.year + 1 }
  { s1 with day := min s1.day s1.last_day_of_month }

/-- Year combo box: select year `y`, then clamp the day (src/lib.rs lines
299–318). -/
def setYear (s : DatePickerPopupState) (y : Int) : DatePickerPopupState :=
  let s1 := { s with year := y }
  { s1 with day := min s1.day s1.last_day_of_month }

/-- Month combo box: select month `m` (offered range 1..=12), then clamp the
day (src/lib.rs lines 323–344). -/
def setMonth (s : DatePickerPopupState) (m : Nat) : DatePickerPopupState :=
  let s1 := { s with month := m }
  { s1 with day := min s1.day s1.last_day_of_month }

/-- Day combo box: select day `d` (offered range 1..=last_day_of_month);
no clamp is performed (src/lib.rs lines 347–365). -/
def setDay (s : DatePickerPopupState) (d : Nat) : DatePickerPopupState :=
  { s with day := d }

/-- Calendar grid cell click: copy the cell's date into the state
(src/lib.rs lines 575–585). -/
def clickDay (s : DatePickerPopupState) (d : NaiveDate) : DatePickerPopupState :=
  { s with year := d.year, month := d.month, day := d.day }

/-- The user interactions handled by one `DatePickerPopup::draw` pass. -/
inductive PopupAction where
  | arrowSubYear | arrowSubMonth | arrowSubDay
  | arrowAddDay | arrowAddMonth | arrowAddYear
  | comboYear (y : Int) | comboMonth (m : Nat) | comboDay (d : Nat)
  | cellClick (d : NaiveDate)
  | cancel
  | save
deriving DecidableEq

/-- Result of one `DatePickerPopup::draw` pass: the new popup state, the
caller-owned selection, and the `saved` / `close` flags. -/
structure DrawResult where
  state : DatePickerPopupState
  selection : NaiveDate
  saved : Bool
  close : Bool
deriving DecidableEq, Repr

/-- One user interaction inside `DatePickerPopup::draw` (src/lib.rs lines
296–621), acting on the popup state and the caller-owned selection.  Only
the Save branch writes the selection, via `from_ymd_opt(year, month,
day).expect(..)` — `none` models that panic.  Every other branch leaves the
selection untouched. -/
def drawStep (a : PopupAction) (s : DatePickerPopupState) (sel : NaiveDate) :
    Option DrawResult :=
  match a with
  | .arrowSubYear => some ⟨subOneYear s, sel, false, false⟩
  | .arrowSubMonth => some ⟨subOneMonth s, sel, false, false⟩
  | .arrowSubDay => some ⟨subOneDay s, sel, false, false⟩
  | .arrowAddDay => some ⟨addOneDay s, sel, false, false⟩
  | .arrowAddMonth => some ⟨addOneMonth s, sel, false, false⟩
  | .arrowAddYear => some ⟨addOneYear s, sel, false, false⟩
  | .comboYear y => some ⟨setYear s y, sel, false, false⟩
  | .comboMonth m => some ⟨setMonth s m, sel, false, false⟩
  | .comboDay d => some ⟨setDay s d, sel, false, false⟩
  | .cellClick d => some ⟨clickDay s d, sel, false, false⟩
  | .cancel => some ⟨s, sel, false, true⟩
  | .save =>
    (fromYmdOpt s.year s.month s.day).map fun d => ⟨s, d, true, true⟩

/-- The list of `n` consecutive days starting at `d` (specification helper
for the characterisation of the grid walk). -/
def listDates (d : NaiveDate) : Nat → List NaiveDate
  | 0 => []
  | n + 1 => d :: listDates (succDate d) n

/-- `k` consecutive Monday-to-Sunday rows starting at `d`, each carrying the
ISO week number of its Sunday (specification helper). -/
def weeksOf (d : NaiveDate) : Nat → List Week
  | 0 => []
  | k + 1 => ⟨isoWeek (succDate^[6] d) % 256, listDates d 7⟩ :: weeksOf (succDate^[7] d) k

/-- The first day of the grid of `(y, m)`: the Monday on or before the first
of the month (specification helper). -/
def gridStart (y : Int) (m : Nat) : NaiveDate :=
  predDate^[weekdayNum ⟨y, m, 1⟩] ⟨y, m, 1⟩

/-- The number of week rows of the grid of `(y, m)` (specification helper). -/
def numWeeks (y : Int) (m : Nat) : Nat :=
  (weekdayNum ⟨y, m, 1⟩ + daysInMonth y m - 1) / 7 + 1

theorem daysInMonth_ge (y : Int) (m : Nat) : 28 ≤ daysInMonth y m := by
  unfold daysInMonth
  split
  · split <;> omega
  · split <;> omega

theorem daysInMonth_le (y : Int) (m : Nat) : daysInMonth y m ≤ 31 := by
  unfold daysInMonth
  split
  · split <;> omega
  · split <;> omega

theorem last_day_of_month_eq (s : DatePickerPopupState) :
    s.last_day_of_month = daysInMonth s.year s.month := by
  have h1 := daysInMonth_ge s.year s.month
  have h2 := daysInMonth_le s.year s.month
  unfold DatePickerPopupState.last_day_of_month withDay
  have h : daysInMonth s.year s.month = 28 ∨ daysInMonth s.year s.month = 29 ∨
      daysInMonth s.year s.month = 30 ∨ daysInMonth s.year s.month = 31 := by omega
  rcases h with h | h | h | h <;> simp only [h] <;> simp [Option.orElse]

theorem doeBase_succ (y : Int) :
    doeBase (y + 1) = doeBase y + 365 + (if isLeapYear (y + 1) = true then 1 else 0) := by
  unfold doeBase isLeapYear
  simp only [Bool.and_eq_true, beq_iff_eq, bne_iff_ne, Bool.or_eq_true, ne_eq]
  split <;> omega

theorem valid_mk {y : Int} {m dd : Nat} :
    (NaiveDate.mk y m dd).valid ↔ 1 ≤ m ∧ m ≤ 12 ∧ 1 ≤ dd ∧ dd ≤ daysInMonth y m := by
  unfold NaiveDate.valid
  simp

theorem succDate_valid {d : NaiveDate} (h : d.valid) : (succDate d).valid := by
  obtain ⟨y, m, dd⟩ := d
  rw [valid_mk] at h
  unfold succDate
  simp only
  split
  · rw [valid_mk]; omega
  · split
    · rw [valid_mk]
      have := daysInMonth_ge y (m + 1)
      omega
    · rw [valid_mk]
      have := daysInMonth_ge (y + 1) 1
      omega

theorem predDate_valid {d : NaiveDate} (h : d.valid) : (predDate d).valid := by
  obtain ⟨y, m, dd⟩ := d
  rw [valid_mk] at h
  unfold predDate
  simp only
  split
  · rw [valid_mk]; omega
  · split
    · rw [valid_mk]
      have := daysInMonth_ge y (m - 1)
      omega
    · rw [valid_mk]
      have : daysInMonth (y - 1) 12 = 31 := by simp [daysInMonth]
      omega

theorem succDate_predDate {d : NaiveDate} (h : d.valid) : succDate (predDate d) = d := by
  obtain ⟨y, m, dd⟩ := d
  rw [valid_mk] at h
  unfold predDate
  simp only
  split
  · unfold succDate
    simp only
    rw [if_pos (by omega)]
    simp
    omega
  · split
    · unfold succDate
      simp only
      rw [if_neg (by omega), if_pos (by omega)]
      simp
      omega
    · unfold succDate
      simp only
      have hd : daysInMonth (y - 1) 12 = 31 := by simp [daysInMonth]
      rw [if_neg (by omega), if_neg (by omega)]
      simp
      omega

theorem daysFromCivil_succ {d : NaiveDate} (h : d.valid) :
    daysFromCivil (succDate d) = daysFromCivil d + 1 := by
  obtain ⟨y, m, dd⟩ := d
  rw [valid_mk] at h
  unfold succDate
  simp only
  split
  · -- same month, next day
    unfold daysFromCivil
    simp only
    split <;> push_cast <;> ring
  · rename_i hlt
    split
    · -- first day of the next month
      rename_i hm12
      have hday : dd = daysInMonth y m := by omega
      have hb := doeBase_succ (y - 1)
      rw [show y - 1 + 1 = y by ring] at hb
      unfold daysFromCivil
      simp only
      have hm : m = 1 ∨ m = 2 ∨ m = 3 ∨ m = 4 ∨ m = 5 ∨ m = 6 ∨ m = 7 ∨ m = 8 ∨ m = 9 ∨
          m = 10 ∨ m = 11 := by omega
      rcases hm with hm|hm|hm|hm|hm|hm|hm|hm|hm|hm|hm <;>
        subst hm <;> simp [daysInMonth] at hday <;> subst hday <;> norm_num <;>
        try omega
      -- February
      cases hleap : isLeapYear y <;> simp [hleap] at hb ⊢ <;> omega
    · -- December 31st: first day of the next year
      rename_i hm12
      have hm : m = 12 := by omega
      subst hm
      have hday : dd = 31 := by
        simp [daysInMonth] at h hlt; omega
      subst hday
      unfold daysFromCivil
      norm_num
      omega

theorem weekdayNum_lt (d : NaiveDate) : weekdayNum d < 7 := by
  unfold weekdayNum
  have h1 : 0 ≤ (daysFromCivil d + 3) % 7 := Int.emod_nonneg _ (by norm_num)
  have h2 : (daysFromCivil d + 3) % 7 < 7 := Int.emod_lt_of_pos _ (by norm_num)
  omega

theorem weekdayNum_succ {d : NaiveDate} (h : d.valid) :
    weekdayNum (succDate d) = (weekdayNum d + 1) % 7 := by
  unfold weekdayNum
  rw [daysFromCivil_succ h]
  omega

theorem weekdayNum_pred {d : NaiveDate} (h : d.valid) :
    weekdayNum (predDate d) = (weekdayNum d + 6) % 7 := by
  have hv := predDate_valid h
  have hs := weekdayNum_succ hv
  rw [succDate_predDate h] at hs
  have h1 := weekdayNum_lt (predDate d)
  have h2 := weekdayNum_lt d
  omega

theorem succIter_valid {d : NaiveDate} (h : d.valid) (n : Nat) : (succDate^[n] d).valid := by
  induction n with
  | zero => simpa using h
  | succ n ih => rw [Function.iterate_succ_apply']; exact succDate_valid ih

theorem predIter_valid {d : NaiveDate} (h : d.valid) (n : Nat) : (predDate^[n] d).valid := by
  induction n with
  | zero => simpa using h
  | succ n ih => rw [Function.iterate_succ_apply']; exact predDate_valid ih

theorem daysFromCivil_iter {d : NaiveDate} (h : d.valid) (n : Nat) :
    daysFromCivil (succDate^[n] d) = daysFromCivil d + n := by
  induction n with
  | zero => simp
  | succ n ih =>
      rw [Function.iterate_succ_apply', daysFromCivil_succ (succIter_valid h n), ih]
      push_cast
      ring

theorem weekdayNum_iter {d : NaiveDate} (h : d.valid) (n : Nat) :
    weekdayNum (succDate^[n] d) = (weekdayNum d + n) % 7 := by
  unfold weekdayNum
  rw [daysFromCivil_iter h n]
  omega

theorem succIter_inj {d : NaiveDate} (h : d.valid) {i j : Nat} (hne : i ≠ j) :
    succDate^[i] d ≠ succDate^[j] d := by
  intro heq
  have h1 := daysFromCivil_iter h i
  have h2 := daysFromCivil_iter h j
  rw [heq] at h1
  omega

theorem succIter_predIter {d : NaiveDate} (h : d.valid) (n : Nat) :
    succDate^[n] (predDate^[n] d) = d := by
  induction n with
  | zero => simp
  | succ n ih =>
      have hpv : (predDate^[n] d).valid := predIter_valid h n
      calc succDate^[n + 1] (predDate^[n + 1] d)
          = succDate^[n] (succDate (predDate (predDate^[n] d))) := by
            rw [Function.iterate_succ_apply' predDate, Function.iterate_succ_apply succDate]
        _ = succDate^[n] (predDate^[n] d) := by rw [succDate_predDate hpv]
        _ = d := ih

theorem daysFromCivil_predIter {d : NaiveDate} (h : d.valid) (n : Nat) :
    daysFromCivil (predDate^[n] d) = daysFromCivil d - n := by
  have hpv : (predDate^[n] d).valid := predIter_valid h n
  have := daysFromCivil_iter hpv n
  rw [succIter_predIter h n] at this
  omega

theorem backToMonday_eq {d : NaiveDate} (h : d.valid) {fuel : Nat}
    (hf : weekdayNum d < fuel) :
    backToMonday fuel d = predDate^[weekdayNum d] d := by
  induction fuel generalizing d with
  | zero => omega
  | succ fuel ih =>
      unfold backToMonday
      by_cases hw : weekdayNum d = 0
      · simp [hw]
      · rw [if_pos (by simpa using hw)]
        have hwp : weekdayNum (predDate d) = weekdayNum d - 1 := by
          have h1 := weekdayNum_pred h
          have h2 := weekdayNum_lt d
          omega
        rw [ih (predDate_valid h) (by omega), hwp]
        rw [← Function.iterate_succ_apply]
        congr 1
        omega

theorem succIter_in_month {y : Int} {m : Nat} {j : Nat}
    (hj : j < daysInMonth y m) : succDate^[j] ⟨y, m, 1⟩ = ⟨y, m, 1 + j⟩ := by
  induction j with
  | zero => simp
  | succ j ih =>
      rw [Function.iterate_succ_apply', ih (by omega)]
      unfold succDate
      simp only
      rw [if_pos (by omega)]
      simp [NaiveDate.mk.injEq]
      omega

theorem predIter_first {y : Int} {m : Nat} (hm1 : 2 ≤ m) {i : Nat}
    (hi1 : 1 ≤ i) (hi2 : i ≤ 7) :
    predDate^[i] ⟨y, m, 1⟩ = ⟨y, m - 1, daysInMonth y (m - 1) + 1 - i⟩ := by
  induction i with
  | zero => omega
  | succ i ih =>
      rcases Nat.eq_zero_or_pos i with h0 | hpos
      · subst h0
        simp only [Function.iterate_succ_apply, Function.iterate_zero_apply]
        unfold predDate
        simp only
        rw [if_neg (by omega), if_pos (by omega)]
        simp [NaiveDate.mk.injEq]
      · rw [Function.iterate_succ_apply', ih hpos (by omega)]
        have hge := daysInMonth_ge y (m - 1)
        unfold predDate
        simp only
        rw [if_pos (by omega)]
        simp [NaiveDate.mk.injEq]
        omega

theorem predIter_first_jan {y : Int} {i : Nat} (hi1 : 1 ≤ i) (hi2 : i ≤ 7) :
    predDate^[i] ⟨y, 1, 1⟩ = ⟨y - 1, 12, 32 - i⟩ := by
  have hd : daysInMonth (y - 1) 12 = 31 := by simp [daysInMonth]
  induction i with
  | zero => omega
  | succ i ih =>
      rcases Nat.eq_zero_or_pos i with h0 | hpos
      · subst h0
        simp only [Function.iterate_succ_apply, Function.iterate_zero_apply]
        unfold predDate
        simp only
        rw [if_neg (by omega), if_neg (by omega)]
      · rw [Function.iterate_succ_apply', ih hpos (by omega)]
        unfold predDate
        simp only
        rw [if_pos (by omega)]
        simp [NaiveDate.mk.injEq]
        omega

theorem succIter_last {y : Int} {m : Nat} (hm1 : 1 ≤ m) (hm2 : m ≤ 11) {j : Nat}
    (hj1 : 1 ≤ j) (hj2 : j ≤ 7) :
    succDate^[j] ⟨y, m, daysInMonth y m⟩ = ⟨y, m + 1, j⟩ := by
  induction j with
  | zero => omega
  | succ j ih =>
      rcases Nat.eq_zero_or_pos j with h0 | hpos
      · subst h0
        simp only [Function.iterate_succ_apply, Function.iterate_zero_apply]
        unfold succDate
        simp only
        rw [if_neg (by omega), if_pos (by omega)]
      · rw [Function.iterate_succ_apply', ih hpos (by omega)]
        have hge := daysInMonth_ge y (m + 1)
        unfold succDate
        simp only
        rw [if_pos (by omega)]

theorem succIter_last_dec {y : Int} {j : Nat} (hj1 : 1 ≤ j) (hj2 : j ≤ 7) :
    succDate^[j] ⟨y, 12, 31⟩ = ⟨y + 1, 1, j⟩ := by
  have hd : daysInMonth y 12 = 31 := by simp [daysInMonth]
  have hd1 : daysInMonth (y + 1) 1 = 31 := by simp [daysInMonth]
  induction j with
  | zero => omega
  | succ j ih =>
      rcases Nat.eq_zero_or_pos j with h0 | hpos
      · subst h0
        simp only [Function.iterate_succ_apply, Function.iterate_zero_apply]
        unfold succDate
        simp only
        rw [if_neg (by omega), if_neg (by omega)]
      · rw [Function.iterate_succ_apply', ih hpos (by omega)]
        unfold succDate
        simp only
        rw [if_pos (by omega)]

theorem listDates_length (d : NaiveDate) (n : Nat) : (listDates d n).length = n := by
  induction n generalizing d with
  | zero => rfl
  | succ n ih => simp [listDates, ih]

theorem listDates_one (d : NaiveDate) : listDates d 1 = [d] := rfl

theorem listDates_eq_map (d : NaiveDate) (n : Nat) :
    listDates d n = (List.range n).map (fun i => succDate^[i] d) := by
  induction n generalizing d with
  | zero => rfl
  | succ n ih =>
      rw [List.range_succ_eq_map, listDates, ih (succDate d)]
      simp only [List.map_cons, Function.iterate_zero_apply, List.map_map]
      refine congrArg _ (List.map_congr_left fun i _ => ?_)
      exact (Function.iterate_succ_apply succDate i d).symm

theorem monthDataLoop_succ_eq (fuel : Nat) (start first : NaiveDate)
    (week : List NaiveDate) (weeks : List Week) :
    monthDataLoop (fuel + 1) start first week weeks =
      if dateLt start first ∨ start.month = first.month ∨ weekdayNum start ≠ 0 then
        if weekdayNum start = 6 then
          monthDataLoop fuel (succDate start) first []
            (weeks ++ [⟨isoWeek start % 256, week ++ [start]⟩])
        else
          monthDataLoop fuel (succDate start) first (week ++ [start]) weeks
      else weeks := rfl

theorem monthDataLoop_exit {first start : NaiveDate} {fuel : Nat} {week : List NaiveDate}
    {weeks : List Week}
    (h : ¬(dateLt start first ∨ start.month = first.month ∨ weekdayNum start ≠ 0)) :
    monthDataLoop fuel start first week weeks = weeks := by
  cases fuel with
  | zero => rfl
  | succ f => rw [monthDataLoop_succ_eq, if_neg h]

theorem monthDataLoop_row {first : NaiveDate} : ∀ (j : Nat) (start : NaiveDate)
    (fuel : Nat) (week : List NaiveDate) (weeks : List Week),
    start.valid → 1 ≤ j → j ≤ 7 → weekdayNum start = 7 - j → j ≤ fuel →
    (∀ i, i < j → (dateLt (succDate^[i] start) first ∨
      (succDate^[i] start).month = first.month ∨ weekdayNum (succDate^[i] start) ≠ 0)) →
    monthDataLoop fuel start first week weeks =
      monthDataLoop (fuel - j) (succDate^[j] start) first []
        (weeks ++ [⟨isoWeek (succDate^[j - 1] start) % 256, week ++ listDates start j⟩]) := by
  intro j
  induction j with
  | zero => intro start fuel week weeks _ h1; omega
  | succ j ih =>
      intro start fuel week weeks hv _ hj7 hwd hfuel hg
      obtain ⟨f, rfl⟩ : ∃ f, fuel = f + 1 := ⟨fuel - 1, by omega⟩
      rw [monthDataLoop_succ_eq, if_pos (by simpa using hg 0 (by omega))]
      by_cases hj0 : j = 0
      · subst hj0
        rw [if_pos (by omega)]
        simp [listDates_one]
      · rw [if_neg (by omega)]
        have hv1 : (succDate start).valid := succDate_valid hv
        have hwd1 : weekdayNum (succDate start) = 7 - j := by
          rw [weekdayNum_succ hv]
          omega
        have hg1 : ∀ i, i < j → (dateLt (succDate^[i] (succDate start)) first ∨
            (succDate^[i] (succDate start)).month = first.month ∨
            weekdayNum (succDate^[i] (succDate start)) ≠ 0) := by
          intro i hi
          have h := hg (i + 1) (by omega)
          rwa [Function.iterate_succ_apply] at h
        rw [ih (succDate start) f (week ++ [start]) weeks hv1 (by omega) (by omega) hwd1
          (by omega) hg1]
        have e1 : f - j = f + 1 - (j + 1) := by omega
        have e2 : succDate^[j] (succDate start) = succDate^[j + 1] start :=
          (Function.iterate_succ_apply succDate j start).symm
        have e3 : succDate^[j - 1] (succDate start) = succDate^[j + 1 - 1] start := by
          rw [← Function.iterate_succ_apply]
          congr 1
          omega
        have e4 : (week ++ [start]) ++ listDates (succDate start) j =
            week ++ listDates start (j + 1) := by
          rw [List.append_assoc]
          simp [listDates]
        rw [e1, e2, e3, e4]

theorem monthDataLoop_run {first : NaiveDate} : ∀ (k : Nat) (start : NaiveDate)
    (fuel : Nat) (weeks : List Week),
    start.valid → weekdayNum start = 0 → 7 * k ≤ fuel →
    (∀ i, i < 7 * k → (dateLt (succDate^[i] start) first ∨
      (succDate^[i] start).month = first.month ∨ weekdayNum (succDate^[i] start) ≠ 0)) →
    ¬(dateLt (succDate^[7 * k] start) first ∨
      (succDate^[7 * k] start).month = first.month ∨ weekdayNum (succDate^[7 * k] start) ≠ 0) →
    monthDataLoop fuel start first [] weeks = weeks ++ weeksOf start k := by
  intro k
  induction k with
  | zero =>
      intro start fuel weeks hv h0 hf hg hstop
      simp only [Nat.mul_zero, Function.iterate_zero_apply] at hstop
      rw [monthDataLoop_exit hstop]
      simp [weeksOf]
  | succ k ih =>
      intro start fuel weeks hv h0 hf hg hstop
      rw [monthDataLoop_row 7 start fuel [] weeks hv (by omega) (by omega) (by omega)
        (by omega) (fun i hi => hg i (by omega))]
      have hv7 : (succDate^[7] start).valid := succIter_valid hv 7
      have h07 : weekdayNum (succDate^[7] start) = 0 := by
        rw [weekdayNum_iter hv 7, h0]
      have hg7 : ∀ i, i < 7 * k → (dateLt (succDate^[i] (succDate^[7] start)) first ∨
          (succDate^[i] (succDate^[7] start)).month = first.month ∨
          weekdayNum (succDate^[i] (succDate^[7] start)) ≠ 0) := by
        intro i hi
        rw [← Function.iterate_add_apply]
        exact hg (i + 7) (by omega)
      have hstop7 : ¬(dateLt (succDate^[7 * k] (succDate^[7] start)) first ∨
          (succDate^[7 * k] (succDate^[7] start)).month = first.month ∨
          weekdayNum (succDate^[7 * k] (succDate^[7] start)) ≠ 0) := by
        rw [← Function.iterate_add_apply]
        have e : 7 * k + 7 = 7 * (k + 1) := by ring
        rw [e]
        exact hstop
      rw [ih (succDate^[7] start) (fuel - 7) _ hv7 h07 (by omega) hg7 hstop7]
      simp [weeksOf]

theorem succIter_predIter_le {d : NaiveDate} (h : d.valid) {i n : Nat} (hin : i ≤ n) :
    succDate^[i] (predDate^[n] d) = predDate^[n - i] d := by
  have hz := predIter_valid h (n - i)
  have e : predDate^[n] d = predDate^[i] (predDate^[n - i] d) := by
    rw [← Function.iterate_add_apply]
    congr 1
    omega
  rw [e, succIter_predIter hz i]

theorem weekdayNum_gridStart {d : NaiveDate} (h : d.valid) :
    weekdayNum (predDate^[weekdayNum d] d) = 0 := by
  have e := daysFromCivil_predIter h (weekdayNum d)
  unfold weekdayNum
  unfold weekdayNum at e
  rw [e]
  omega

theorem month_data_eq {y : Int} {m : Nat} (hm1 : 1 ≤ m) (hm2 : m ≤ 12) :
    month_data y m = some (weeksOf (gridStart y m) (numWeeks y m)) := by
  have hge := daysInMonth_ge y m
  have hle := daysInMonth_le y m
  have hvF : (NaiveDate.mk y m 1).valid := valid_mk.mpr ⟨hm1, hm2, le_refl 1, by omega⟩
  have hw7 : weekdayNum (NaiveDate.mk y m 1) < 7 := weekdayNum_lt _
  have hvS : (gridStart y m).valid := predIter_valid hvF _
  have hwS : weekdayNum (gridStart y m) = 0 := weekdayNum_gridStart hvF
  -- abbreviations (as plain equations for omega)
  have hL1 : 1 ≤ daysInMonth y m := by omega
  -- the stop index
  have hNub : weekdayNum (NaiveDate.mk y m 1) + daysInMonth y m ≤ 7 * numWeeks y m ∧
      7 * numWeeks y m ≤ weekdayNum (NaiveDate.mk y m 1) + daysInMonth y m + 6 := by
    unfold numWeeks
    omega
  -- guard facts
  have hguard : ∀ i, i < 7 * numWeeks y m →
      (dateLt (succDate^[i] (gridStart y m)) (NaiveDate.mk y m 1) ∨
       (succDate^[i] (gridStart y m)).month = (NaiveDate.mk y m 1).month ∨
       weekdayNum (succDate^[i] (gridStart y m)) ≠ 0) := by
    intro i hi
    by_cases hA : i < weekdayNum (NaiveDate.mk y m 1)
    · have hix : succDate^[i] (gridStart y m) =
          predDate^[weekdayNum (NaiveDate.mk y m 1) - i] (NaiveDate.mk y m 1) :=
        succIter_predIter_le hvF (by omega)
      rw [hix]
      rcases Nat.lt_or_ge m 2 with hm' | hm'
      · have hmeq : m = 1 := by omega
        subst hmeq
        rw [predIter_first_jan (by omega) (by omega)]
        exact Or.inl (Or.inl (show y - 1 < y by omega))
      · rw [predIter_first hm' (by omega) (by omega)]
        exact Or.inl (Or.inr ⟨rfl, Or.inl (show m - 1 < m by omega)⟩)
    · by_cases hB : i < weekdayNum (NaiveDate.mk y m 1) + daysInMonth y m
      · have hix : succDate^[i] (gridStart y m) =
            succDate^[i - weekdayNum (NaiveDate.mk y m 1)] (NaiveDate.mk y m 1) := by
          conv_lhs => rw [show i = (i - weekdayNum (NaiveDate.mk y m 1)) +
            weekdayNum (NaiveDate.mk y m 1) by omega]
          unfold gridStart
          rw [Function.iterate_add_apply, succIter_predIter hvF]
        rw [hix, succIter_in_month (by omega)]
        exact Or.inr (Or.inl rfl)
      · refine Or.inr (Or.inr ?_)
        rw [weekdayNum_iter hvS i, hwS]
        unfold numWeeks at hi
        omega
  -- the stop fact
  have hstop : ¬(dateLt (succDate^[7 * numWeeks y m] (gridStart y m)) (NaiveDate.mk y m 1) ∨
      (succDate^[7 * numWeeks y m] (gridStart y m)).month = (NaiveDate.mk y m 1).month ∨
      weekdayNum (succDate^[7 * numWeeks y m] (gridStart y m)) ≠ 0) := by
    have hwd : weekdayNum (succDate^[7 * numWeeks y m] (gridStart y m)) = 0 := by
      rw [weekdayNum_iter hvS, hwS]
      omega
    have hix : succDate^[7 * numWeeks y m] (gridStart y m) =
        succDate^[7 * numWeeks y m - weekdayNum (NaiveDate.mk y m 1) - (daysInMonth y m - 1)]
          (NaiveDate.mk y m (daysInMonth y m)) := by
      conv_lhs => rw [show 7 * numWeeks y m =
        (7 * numWeeks y m - weekdayNum (NaiveDate.mk y m 1) - (daysInMonth y m - 1)) +
          (daysInMonth y m - 1) + weekdayNum (NaiveDate.mk y m 1) by omega]
      unfold gridStart
      rw [Function.iterate_add_apply, succIter_predIter hvF, Function.iterate_add_apply,
        succIter_in_month (by omega : daysInMonth y m - 1 < daysInMonth y m)]
      congr 2
      omega
    rcases Nat.lt_or_ge m 12 with hm' | hm'
    · rw [succIter_last hm1 (by omega) (by omega) (by omega)] at hix
      rw [hix] at hwd ⊢
      intro hcon
      rcases hcon with hcon | hcon | hcon
      · unfold dateLt at hcon
        simp only at hcon
        omega
      · simp only at hcon
        omega
      · exact hcon hwd
    · have hmeq : m = 12 := by omega
      subst hmeq
      have hd31 : daysInMonth y 12 = 31 := by simp [daysInMonth]
      rw [hd31] at hix
      rw [succIter_last_dec (by omega) (by omega)] at hix
      rw [hix] at hwd ⊢
      intro hcon
      rcases hcon with hcon | hcon | hcon
      · unfold dateLt at hcon
        simp only at hcon
        omega
      · simp only at hcon
        omega
      · exact hcon hwd
  -- assemble
  unfold month_data fromYmdOpt
  rw [if_pos hvF]
  simp only [Option.map_some']
  congr 1
  rw [backToMonday_eq hvF (by omega)]
  have hrun := @monthDataLoop_run (NaiveDate.mk y m 1) (numWeeks y m) (gridStart y m)
    64 [] hvS hwS (by unfold numWeeks; omega) hguard hstop
  show monthDataLoop 64 (gridStart y m) (NaiveDate.mk y m 1) [] [] =
    weeksOf (gridStart y m) (numWeeks y m)
  rw [hrun]
  simp

theorem listDates_add (d : NaiveDate) (a b : Nat) :
    listDates d (a + b) = listDates d a ++ listDates (succDate^[a] d) b := by
  induction a generalizing d with
  | zero => simp [listDates]
  | succ a ih =>
      rw [show a + 1 + b = (a + b) + 1 by omega, listDates, ih (succDate d), listDates]
      simp [Function.iterate_succ_apply]

theorem listDates_head {d : NaiveDate} {n : Nat} (h : 1 ≤ n) :
    (listDates d n).head? = some d := by
  obtain ⟨k, rfl⟩ : ∃ k, n = k + 1 := ⟨n - 1, by omega⟩
  rw [listDates]
  rfl

theorem listDates_getLast : ∀ {n : Nat}, 1 ≤ n → ∀ (d : NaiveDate),
    (listDates d n).getLast? = some (succDate^[n - 1] d) := by
  intro n
  induction n with
  | zero => omega
  | succ n ih =>
      intro _ d
      rcases Nat.eq_zero_or_pos n with h0 | hpos
      · subst h0
        rfl
      · obtain ⟨p, rfl⟩ : ∃ p, n = p + 1 := ⟨n - 1, by omega⟩
        rw [listDates, listDates, List.getLast?_cons_cons]
        have htl := ih (by omega) (succDate d)
        rw [listDates] at htl
        rw [htl]
        rfl

theorem listDates_chain (d : NaiveDate) (n : Nat) :
    List.Chain' (fun a b => b = succDate a) (listDates d n) := by
  induction n generalizing d with
  | zero => simp [listDates]
  | succ n ih =>
      rw [listDates, List.chain'_cons']
      refine ⟨fun x hx => ?_, ih (succDate d)⟩
      rcases Nat.eq_zero_or_pos n with h0 | hpos
      · subst h0
        simp [listDates] at hx
      · rw [listDates_head hpos] at hx
        simp at hx
        exact hx.symm

theorem listDates_mem {d x : NaiveDate} {n : Nat} :
    x ∈ listDates d n ↔ ∃ i, i < n ∧ x = succDate^[i] d := by
  rw [listDates_eq_map]
  simp [eq_comm, List.mem_map]

theorem listDates_nodup {d : NaiveDate} (h : d.valid) (n : Nat) :
    (listDates d n).Nodup := by
  rw [listDates_eq_map]
  refine List.Nodup.map_on ?_ (List.nodup_range n)
  intro i hi j hj hf
  by_contra hne
  exact succIter_inj h hne hf

theorem listDates_count_one {d x : NaiveDate} {n : Nat} (hv : d.valid)
    (hx : x ∈ listDates d n) : (listDates d n).count x = 1 :=
  List.count_eq_one_of_mem (listDates_nodup hv n) hx

theorem weeksOf_length (d : NaiveDate) (k : Nat) : (weeksOf d k).length = k := by
  induction k generalizing d with
  | zero => rfl
  | succ k ih => simp [weeksOf, ih]

theorem weeksOf_mem {d : NaiveDate} {k : Nat} {w : Week} (hw : w ∈ weeksOf d k) :
    ∃ j, j < k ∧ w = ⟨isoWeek (succDate^[6] (succDate^[7 * j] d)) % 256,
      listDates (succDate^[7 * j] d) 7⟩ := by
  induction k generalizing d with
  | zero => simp [weeksOf] at hw
  | succ k ih =>
      rw [weeksOf] at hw
      rcases List.mem_cons.mp hw with h | h
      · refine ⟨0, by omega, ?_⟩
        rw [h]
        rfl
      · obtain ⟨j, hj, hwj⟩ := ih h
        refine ⟨j + 1, by omega, ?_⟩
        rw [hwj]
        rw [show 7 * (j + 1) = 7 * j + 7 by ring, Function.iterate_add_apply]

theorem weeksOf_flatten (d : NaiveDate) (k : Nat) :
    ((weeksOf d k).map Week.days).flatten = listDates d (7 * k) := by
  induction k generalizing d with
  | zero => simp [weeksOf, listDates]
  | succ k ih =>
      rw [weeksOf]
      simp only [List.map_cons, List.flatten_cons]
      rw [ih (succDate^[7] d), show 7 * (k + 1) = 7 + 7 * k by ring, listDates_add]

theorem validCursor_iff_isSome (s : DatePickerPopupState) :
    s.validCursor ↔ (fromYmdOpt s.year s.month s.day).isSome = true := by
  unfold fromYmdOpt
  constructor
  · intro h
    rw [if_pos (valid_mk.mpr h)]
    rfl
  · intro h
    by_cases hv : (NaiveDate.mk s.year s.month s.day).valid
    · exact valid_mk.mp hv
    · rw [if_neg hv] at h
      simp at h

theorem month_data_days_valid {y : Int} {m : Nat} {ws : List Week}
    (hm1 : 1 ≤ m) (hm2 : m ≤ 12) (hws : month_data y m = some ws) :
    ∀ w ∈ ws, ∀ d ∈ w.days, d.valid := by
  rw [month_data_eq hm1 hm2] at hws
  have hws' : ws = weeksOf (gridStart y m) (numWeeks y m) := (Option.some.inj hws).symm
  intro w hw d hd
  subst hws'
  obtain ⟨j, hj, rfl⟩ := weeksOf_mem hw
  simp only at hd
  obtain ⟨i, hi, rfl⟩ := listDates_mem.mp hd
  have hge := daysInMonth_ge y m
  have hvF : (NaiveDate.mk y m 1).valid := valid_mk.mpr ⟨hm1, hm2, le_refl 1, by omega⟩
  have hvS : (gridStart y m).valid := predIter_valid hvF _
  exact succIter_valid (succIter_valid hvS (7 * j)) i

theorem valid_subOneYear {s : DatePickerPopupState} (h : s.validCursor) :
    (subOneYear s).validCursor := by
  obtain ⟨h1, h2, h3, h4⟩ := h
  have g1 := daysInMonth_ge (s.year - 1) s.month
  unfold subOneYear
  simp only [last_day_of_month_eq, DatePickerPopupState.validCursor]
  omega

theorem valid_addOneYear {s : DatePickerPopupState} (h : s.validCursor) :
    (addOneYear s).validCursor := by
  obtain ⟨h1, h2, h3, h4⟩ := h
  have g1 := daysInMonth_ge (s.year + 1) s.month
  unfold addOneYear
  simp only [last_day_of_month_eq, DatePickerPopupState.validCursor]
  omega

theorem valid_subOneMonth {s : DatePickerPopupState} (h : s.validCursor) :
    (subOneMonth s).validCursor := by
  obtain ⟨h1, h2, h3, h4⟩ := h
  have g1 := daysInMonth_ge (s.year - 1) 12
  have g2 := daysInMonth_ge s.year (s.month - 1)
  unfold subOneMonth
  simp only [last_day_of_month_eq, DatePickerPopupState.validCursor]
  split_ifs <;> simp_all <;> omega

theorem valid_addOneMonth {s : DatePickerPopupState} (h : s.validCursor) :
    (addOneMonth s).validCursor := by
  obtain ⟨h1, h2, h3, h4⟩ := h
  have g1 := daysInMonth_ge (s.year + 1) 1
  have g2 := daysInMonth_ge s.year (s.month + 1)
  unfold addOneMonth
  simp only [last_day_of_month_eq, DatePickerPopupState.validCursor]
  split_ifs <;> simp_all <;> omega

theorem valid_subOneDay {s : DatePickerPopupState} (h : s.validCursor) :
    (subOneDay s).validCursor := by
  obtain ⟨h1, h2, h3, h4⟩ := h
  have g1 := daysInMonth_ge (s.year - 1) 12
  have g2 := daysInMonth_ge s.year (s.month - 1)
  unfold subOneDay
  simp only [last_day_of_month_eq, DatePickerPopupState.validCursor]
  split_ifs <;> simp_all <;> omega

theorem valid_addOneDay {s : DatePickerPopupState} (h : s.validCursor) :
    (addOneDay s).validCursor := by
  obtain ⟨h1, h2, h3, h4⟩ := h
  have g1 := daysInMonth_ge (s.year + 1) 1
  have g2 := daysInMonth_ge s.year (s.month + 1)
  unfold addOneDay
  simp only [last_day_of_month_eq, DatePickerPopupState.validCursor]
  split_ifs <;> simp_all <;> omega

theorem valid_setYear {s : DatePickerPopupState} (h : s.validCursor) (y : Int) :
    (setYear s y).validCursor := by
  obtain ⟨h1, h2, h3, h4⟩ := h
  have g1 := daysInMonth_ge y s.month
  unfold setYear
  simp only [last_day_of_month_eq, DatePickerPopupState.validCursor]
  omega

theorem valid_setMonth {s : DatePickerPopupState} (h : s.validCursor) {m : Nat}
    (hm1 : 1 ≤ m) (hm2 : m ≤ 12) : (setMonth s m).validCursor := by
  obtain ⟨h1, h2, h3, h4⟩ := h
  have g1 := daysInMonth_ge s.year m
  unfold setMonth
  simp only [last_day_of_month_eq, DatePickerPopupState.validCursor]
  omega

theorem valid_setDay {s : DatePickerPopupState} (h : s.validCursor) {d : Nat}
    (hd1 : 1 ≤ d) (hd2 : d ≤ s.last_day_of_month) : (setDay s d).validCursor := by
  obtain ⟨h1, h2, h3, h4⟩ := h
  rw [last_day_of_month_eq] at hd2
  exact ⟨h1, h2, hd1, hd2⟩

theorem valid_clickDay {s : DatePickerPopupState} {d : NaiveDate} (hd : d.valid) :
    (clickDay s d).validCursor := by
  obtain ⟨h1, h2, h3, h4⟩ := hd
  exact ⟨h1, h2, h3, h4⟩

theorem dayOfYear_bounds {d : NaiveDate} (h : d.valid) :
    1 ≤ dayOfYear d ∧
      dayOfYear d ≤ (if isLeapYear d.year = true then 366 else 365) := by
  obtain ⟨y, m, dd⟩ := d
  rw [valid_mk] at h
  have hm : m = 1 ∨ m = 2 ∨ m = 3 ∨ m = 4 ∨ m = 5 ∨ m = 6 ∨ m = 7 ∨ m = 8 ∨ m = 9 ∨
      m = 10 ∨ m = 11 ∨ m = 12 := by omega
  unfold dayOfYear
  rcases hm with hm|hm|hm|hm|hm|hm|hm|hm|hm|hm|hm|hm <;> subst hm <;>
    simp only [daysInMonth] at h <;>
    cases hleap : isLeapYear y <;> simp_all <;> omega

theorem isoWeeksInYear_bounds (y : Int) :
    isoWeeksInYear y = 52 ∨ isoWeeksInYear y = 53 := by
  unfold isoWeeksInYear
  split <;> simp

theorem isoWeek_bounds {d : NaiveDate} (h : d.valid) :
    1 ≤ isoWeek d ∧ isoWeek d ≤ 53 := by
  have hdoy := dayOfYear_bounds h
  have hw := weekdayNum_lt d
  have h52 := isoWeeksInYear_bounds (d.year - 1)
  unfold isoWeek
  simp only
  split
  · omega
  · split
    · omega
    · have hdoy' : dayOfYear d ≤ 366 := by
        rcases hdoy with ⟨h1, h2⟩
        split at h2 <;> omega
      omega

theorem dayOfYear_succ {d : NaiveDate} (h : d.valid) (hne : ¬(d.month = 12 ∧ d.day = 31)) :
    (succDate d).year = d.year ∧ dayOfYear (succDate d) = dayOfYear d + 1 := by
  obtain ⟨y, m, dd⟩ := d
  rw [valid_mk] at h
  simp only at hne
  unfold succDate
  simp only
  split
  · constructor
    · rfl
    · unfold dayOfYear
      simp only
      omega
  · rename_i hlt
    split
    · rename_i hm12
      have hday : dd = daysInMonth y m := by omega
      constructor
      · rfl
      · have hm : m = 1 ∨ m = 2 ∨ m = 3 ∨ m = 4 ∨ m = 5 ∨ m = 6 ∨ m = 7 ∨ m = 8 ∨ m = 9 ∨
            m = 10 ∨ m = 11 := by omega
        unfold dayOfYear
        rcases hm with hm|hm|hm|hm|hm|hm|hm|hm|hm|hm|hm <;> subst hm <;>
          simp only [daysInMonth] at hday <;>
          cases hleap : isLeapYear y <;> simp_all
    · exfalso
      have hm : m = 12 := by omega
      subst hm
      have hd31 : daysInMonth y 12 = 31 := by simp [daysInMonth]
      omega

theorem isoWeek_succ_sameyear {d : NaiveDate} (h : d.valid) (hw : weekdayNum d ≠ 6)
    (hne : ¬(d.month = 12 ∧ d.day = 31)) : isoWeek (succDate d) = isoWeek d := by
  obtain ⟨hy, hdoy⟩ := dayOfYear_succ h hne
  have hwlt := weekdayNum_lt d
  have hwsucc : weekdayNum (succDate d) = weekdayNum d + 1 := by
    rw [weekdayNum_succ h]
    omega
  unfold isoWeek
  simp only
  rw [hy, hdoy, hwsucc]
  have he : dayOfYear d + 1 + 10 - (weekdayNum d + 1 + 1) =
      dayOfYear d + 10 - (weekdayNum d + 1) := by omega
  rw [he]

theorem succDate_dec31 (y : Int) : succDate ⟨y, 12, 31⟩ = ⟨y + 1, 1, 1⟩ := by
  unfold succDate
  simp only
  have hd : daysInMonth y 12 = 31 := by simp [daysInMonth]
  rw [if_neg (by omega), if_neg (by omega)]

theorem dec31_valid (y : Int) : (NaiveDate.mk y 12 31).valid := by
  rw [valid_mk]
  simp [daysInMonth]

theorem daysFromCivil_dec31 (y : Int) :
    daysFromCivil ⟨y, 12, 31⟩ =
      daysFromCivil ⟨y, 1, 1⟩ + 364 + (if isLeapYear y = true then 1 else 0) := by
  have hb := doeBase_succ (y - 1)
  rw [sub_add_cancel] at hb
  unfold daysFromCivil
  norm_num
  omega

theorem isoWeek_succ_dec31 {y : Int} (hw : weekdayNum ⟨y, 12, 31⟩ ≠ 6) :
    isoWeek (succDate ⟨y, 12, 31⟩) = isoWeek ⟨y, 12, 31⟩ := by
  rw [succDate_dec31]
  have ha1 := daysFromCivil_dec31 y
  have ha2 : daysFromCivil ⟨y + 1, 1, 1⟩ = daysFromCivil ⟨y, 1, 1⟩ + 365 +
      (if isLeapYear y = true then 1 else 0) := by
    have hs := daysFromCivil_succ (dec31_valid y)
    rw [succDate_dec31] at hs
    omega
  have hdoy31 : dayOfYear ⟨y, 12, 31⟩ = 365 + (if isLeapYear y = true then 1 else 0) := by
    unfold dayOfYear
    by_cases hleap : isLeapYear y = true <;> simp [hleap]
  have hdoy11 : dayOfYear ⟨y + 1, 1, 1⟩ = 1 := by
    unfold dayOfYear
    norm_num
  unfold weekdayNum at hw
  rw [ha1] at hw
  unfold isoWeek isoWeeksInYear jan1Weekday weekdayNum
  simp only [add_sub_cancel_right]
  rw [ha1, ha2, hdoy31, hdoy11]
  cases hleap : isLeapYear y <;> simp [hleap] at hw ⊢ <;> split_ifs <;> omega

theorem isoWeek_succ {d : NaiveDate} (h : d.valid) (hw : weekdayNum d ≠ 6) :
    isoWeek (succDate d) = isoWeek d := by
  by_cases hne : d.month = 12 ∧ d.day = 31
  · obtain ⟨y, m, dd⟩ := d
    simp only at hne
    obtain ⟨hm, hd⟩ := hne
    subst hm
    subst hd
    exact isoWeek_succ_dec31 hw
  · exact isoWeek_succ_sameyear h hw hne

theorem isoWeek_row {s : NaiveDate} (hv : s.valid) (h0 : weekdayNum s = 0) :
    ∀ i, i ≤ 6 → isoWeek (succDate^[i] s) = isoWeek s := by
  intro i
  induction i with
  | zero => intro _; simp
  | succ i ih =>
      intro hi
      rw [Function.iterate_succ_apply']
      have hvi : (succDate^[i] s).valid := succIter_valid hv i
      have hwi : weekdayNum (succDate^[i] s) = i := by
        rw [weekdayNum_iter hv i, h0]
        omega
      rw [isoWeek_succ hvi (by omega), ih (by omega)]

theorem addOneMonth_eq {s : DatePickerPopupState} (h : s.validCursor) :
    addOneMonth s = if s.month = 12
      then ⟨s.year + 1, 1, min s.day (daysInMonth (s.year + 1) 1), s.setup⟩
      else ⟨s.year, s.month + 1, min s.day (daysInMonth s.year (s.month + 1)), s.setup⟩ := by
  obtain ⟨h1, h2, h3, h4⟩ := h
  unfold addOneMonth
  simp only [last_day_of_month_eq]
  by_cases hm : s.month = 12
  · rw [if_pos hm]
    simp [hm]
  · rw [if_neg hm]
    have hgt : ¬(s.month + 1 > 12) := by omega
    simp [hgt]

theorem subOneMonth_eq {s : DatePickerPopupState} (h : s.validCursor) :
    subOneMonth s = if s.month = 1
      then ⟨s.year - 1, 12, min s.day (daysInMonth (s.year - 1) 12), s.setup⟩
      else ⟨s.year, s.month - 1, min s.day (daysInMonth s.year (s.month - 1)), s.setup⟩ := by
  obtain ⟨h1, h2, h3, h4⟩ := h
  unfold subOneMonth
  simp only [last_day_of_month_eq]
  by_cases hm : s.month = 1
  · rw [if_pos hm]
    simp [hm]
  · rw [if_neg hm]
    have hne : ¬(s.month - 1 = 0) := by omega
    simp [hne]

theorem addOneDay_eq {s : DatePickerPopupState} (h : s.validCursor) :
    addOneDay s = if s.day < daysInMonth s.year s.month
      then ⟨s.year, s.month, s.day + 1, s.setup⟩
      else if s.month = 12 then ⟨s.year + 1, 1, 1, s.setup⟩
      else ⟨s.year, s.month + 1, 1, s.setup⟩ := by
  obtain ⟨h1, h2, h3, h4⟩ := h
  unfold addOneDay
  simp only [last_day_of_month_eq]
  by_cases hd : s.day < daysInMonth s.year s.month
  · rw [if_pos hd]
    have hle : ¬(s.day + 1 > daysInMonth s.year s.month) := by omega
    simp [hle]
  · rw [if_neg hd]
    have hgt : s.day + 1 > daysInMonth s.year s.month := by omega
    simp only [hgt, if_pos, gt_iff_lt, if_true]
    by_cases hm : s.month = 12
    · rw [if_pos hm]
      simp [hm]
    · rw [if_neg hm]
      have hne : ¬(s.month + 1 > 12) := by omega
      simp [hne]

theorem subOneDay_eq {s : DatePickerPopupState} (h : s.validCursor) :
    subOneDay s = if 1 < s.day
      then ⟨s.year, s.month, s.day - 1, s.setup⟩
      else if s.month = 1 then ⟨s.year - 1, 12, daysInMonth (s.year - 1) 12, s.setup⟩
      else ⟨s.year, s.month - 1, daysInMonth s.year (s.month - 1), s.setup⟩ := by
  obtain ⟨h1, h2, h3, h4⟩ := h
  unfold subOneDay
  simp only [last_day_of_month_eq]
  by_cases hd : 1 < s.day
  · rw [if_pos hd]
    have hne : ¬(s.day - 1 = 0) := by omega
    simp [hne]
  · rw [if_neg hd]
    have heq : s.day - 1 = 0 := by omega
    simp only [heq, if_pos]
    by_cases hm : s.month = 1
    · rw [if_pos hm]
      simp [hm]
    · rw [if_neg hm]
      have hne : ¬(s.month - 1 = 0) := by omega
      simp [hne]

theorem addOneMonth_iter {y : Int} {m dd : Nat} {st : Bool} (h1 : 1 ≤ m) (h2 : m ≤ 12)
    (hd1 : 1 ≤ dd) (hd28 : dd ≤ 28) : ∀ n : Nat,
    addOneMonth^[n] ⟨y, m, dd, st⟩ =
      ⟨y + ((m + n - 1) / 12 : Nat), (m + n - 1) % 12 + 1, dd, st⟩ := by
  intro n
  induction n with
  | zero =>
      simp only [Function.iterate_zero_apply, DatePickerPopupState.mk.injEq]
      refine ⟨?_, by omega, trivial, trivial⟩
      have e : (m + 0 - 1) / 12 = 0 := by omega
      rw [e]
      simp
  | succ n ih =>
      rw [Function.iterate_succ_apply', ih]
      have hM1 : 1 ≤ (m + n - 1) % 12 + 1 := by omega
      have hM2 : (m + n - 1) % 12 + 1 ≤ 12 := by omega
      have hv : (DatePickerPopupState.mk (y + ((m + n - 1) / 12 : Nat))
          ((m + n - 1) % 12 + 1) dd st).validCursor :=
        ⟨hM1, hM2, hd1, le_trans hd28 (daysInMonth_ge _ _)⟩
      rw [addOneMonth_eq hv]
      by_cases hm12 : (m + n - 1) % 12 + 1 = 12
      · rw [if_pos (by simpa using hm12)]
        simp only [DatePickerPopupState.mk.injEq]
        refine ⟨by push_cast; omega, by omega, ?_, trivial⟩
        exact Nat.min_eq_left (le_trans hd28 (daysInMonth_ge _ _))
      · rw [if_neg (by simpa using hm12)]
        simp only [DatePickerPopupState.mk.injEq]
        refine ⟨by push_cast; omega, by omega, ?_, trivial⟩
        exact Nat.min_eq_left (le_trans hd28 (daysInMonth_ge _ _))

theorem validCursor_mk {y : Int} {m dd : Nat} {st : Bool} :
    (DatePickerPopupState.mk y m dd st).validCursor ↔
      1 ≤ m ∧ m ≤ 12 ∧ 1 ≤ dd ∧ dd ≤ daysInMonth y m := by
  unfold DatePickerPopupState.validCursor
  simp

/-- Claim C3: for every year and month 1–12, `last_day_of_month` returns 29
for February of a leap year, 28 for February of a non-leap year, 30 for
April, June, September and November, and 31 otherwise; equivalently it is
the greatest day `d ≤ 31` for which `(year, month, d)` is constructible. -/
theorem C3_last_day_of_month (s : DatePickerPopupState)
    (h1 : 1 ≤ s.month) (h2 : s.month ≤ 12) :
    (s.month = 2 → isLeapYear s.year = true → s.last_day_of_month = 29) ∧
    (s.month = 2 → isLeapYear s.year = false → s.last_day_of_month = 28) ∧
    (s.month = 4 ∨ s.month = 6 ∨ s.month = 9 ∨ s.month = 11 → s.last_day_of_month = 30) ∧
    (s.month ≠ 2 → ¬(s.month = 4 ∨ s.month = 6 ∨ s.month = 9 ∨ s.month = 11) →
      s.last_day_of_month = 31) ∧
    s.last_day_of_month ≤ 31 ∧
    (fromYmdOpt s.year s.month s.last_day_of_month).isSome = true ∧
    (∀ d, s.last_day_of_month < d → fromYmdOpt s.year s.month d = none) := by
  rw [last_day_of_month_eq]
  have hge := daysInMonth_ge s.year s.month
  have hle := daysInMonth_le s.year s.month
  refine ⟨?_, ?_, ?_, ?_, hle, ?_, ?_⟩
  · intro hm hl
    simp [daysInMonth, hm, hl]
  · intro hm hl
    simp [daysInMonth, hm, hl]
  · intro hm
    unfold daysInMonth
    rcases hm with hm | hm | hm | hm <;> simp [hm]
  · intro hm hnot
    unfold daysInMonth
    rw [if_neg hm, if_neg hnot]
  · unfold fromYmdOpt
    rw [if_pos (valid_mk.mpr ⟨h1, h2, by omega, le_refl _⟩)]
    rfl
  · intro d hd
    unfold fromYmdOpt
    rw [if_neg]
    rw [valid_mk]
    omega

/-- Witness for C3 at the spec's examples: February 2024 (leap) and
February 2023 (non-leap). -/
theorem C3_last_day_of_month_witness :
    (1 ≤ (2 : Nat) ∧ (2 : Nat) ≤ 12) ∧
    (DatePickerPopupState.mk 2024 2 1 true).last_day_of_month = 29 ∧
    (DatePickerPopupState.mk 2023 2 1 true).last_day_of_month = 28 := by
  refine ⟨⟨by decide, by decide⟩, ?_, ?_⟩
  · exact (C3_last_day_of_month ⟨2024, 2, 1, true⟩ (by decide) (by decide)).1 rfl (by decide)
  · exact (C3_last_day_of_month ⟨2023, 2, 1, true⟩ (by decide) (by decide)).2.1 rfl (by decide)

/-- Claim C4: on a valid cursor, the add-one-month arrow increments the
month, rolling 13 over to month 1 of the next year, then clamps the day to
the new month's last valid day; subtract-one-month rolls 0 over to month 12
of the previous year and clamps likewise; and (2024, 1, 31) plus one month
is (2024, 2, 29). -/
theorem C4_month_arrows :
    (∀ s : DatePickerPopupState, s.validCursor →
      addOneMonth s = (if s.month = 12
        then ⟨s.year + 1, 1, min s.day (daysInMonth (s.year + 1) 1), s.setup⟩
        else ⟨s.year, s.month + 1, min s.day (daysInMonth s.year (s.month + 1)), s.setup⟩) ∧
      subOneMonth s = (if s.month = 1
        then ⟨s.year - 1, 12, min s.day (daysInMonth (s.year - 1) 12), s.setup⟩
        else ⟨s.year, s.month - 1, min s.day (daysInMonth s.year (s.month - 1)), s.setup⟩)) ∧
    (∀ st : Bool, addOneMonth ⟨2024, 1, 31, st⟩ = ⟨2024, 2, 29, st⟩) := by
  constructor
  · intro s h
    exact ⟨addOneMonth_eq h, subOneMonth_eq h⟩
  · intro st
    rfl

/-- Witness for C4 at cursor (2024, 1, 31). -/
theorem C4_month_arrows_witness :
    (DatePickerPopupState.mk 2024 1 31 true).validCursor ∧
    addOneMonth ⟨2024, 1, 31, true⟩ = ⟨2024, 2, 29, true⟩ ∧
    subOneMonth ⟨2024, 1, 31, true⟩ = ⟨2023, 12, 31, true⟩ := by
  refine ⟨by decide, ?_, ?_⟩
  · rw [(C4_month_arrows.1 ⟨2024, 1, 31, true⟩ (by decide)).1]
    decide
  · rw [(C4_month_arrows.1 ⟨2024, 1, 31, true⟩ (by decide)).2]
    decide

/-- Claim C5: on a valid cursor, the add-one-day arrow increments the day
rolling past the month's last valid day into day 1 of the next month
(carrying month 13 into month 1 of the next year), and subtract-one-day
rolls past day 1 to the last valid day of the previous month (carrying
month 0 into month 12 of the previous year); and (2023, 12, 31) plus one
day is (2024, 1, 1). -/
theorem C5_day_arrows :
    (∀ s : DatePickerPopupState, s.validCursor →
      addOneDay s = (if s.day < daysInMonth s.year s.month
        then ⟨s.year, s.month, s.day + 1, s.setup⟩
        else if s.month = 12 then ⟨s.year + 1, 1, 1, s.setup⟩
        else ⟨s.year, s.month + 1, 1, s.setup⟩) ∧
      subOneDay s = (if 1 < s.day
        then ⟨s.year, s.month, s.day - 1, s.setup⟩
        else if s.month = 1 then ⟨s.year - 1, 12, daysInMonth (s.year - 1) 12, s.setup⟩
        else ⟨s.year, s.month - 1, daysInMonth s.year (s.month - 1), s.setup⟩)) ∧
    (∀ st : Bool, addOneDay ⟨2023, 12, 31, st⟩ = ⟨2024, 1, 1, st⟩) := by
  constructor
  · intro s h
    exact ⟨addOneDay_eq h, subOneDay_eq h⟩
  · intro st
    rfl

/-- Witness for C5 at cursor (2023, 12, 31). -/
theorem C5_day_arrows_witness :
    (DatePickerPopupState.mk 2023 12 31 true).validCursor ∧
    addOneDay ⟨2023, 12, 31, true⟩ = ⟨2024, 1, 1, true⟩ ∧
    subOneDay ⟨2023, 12, 31, true⟩ = ⟨2023, 12, 30, true⟩ := by
  refine ⟨by decide, ?_, ?_⟩
  · rw [(C5_day_arrows.1 ⟨2023, 12, 31, true⟩ (by decide)).1]
    decide
  · rw [(C5_day_arrows.1 ⟨2023, 12, 31, true⟩ (by decide)).2]
    decide

/-- Claim C6: on a valid cursor whose day is at most 28, applying
add-one-month twelve times equals applying add-one-year once: the year
grows by one and month and day are unchanged, with no clamp firing. -/
theorem C6_twelve_months_eq_year (s : DatePickerPopupState)
    (h : s.validCursor) (hd : s.day ≤ 28) :
    addOneMonth^[12] s = addOneYear s := by
  obtain ⟨y, m, dd, st⟩ := s
  rw [validCursor_mk] at h
  obtain ⟨h1, h2, h3, h4⟩ := h
  have hd' : dd ≤ 28 := hd
  rw [addOneMonth_iter h1 h2 h3 hd' 12]
  unfold addOneYear
  simp only [last_day_of_month_eq, DatePickerPopupState.mk.injEq]
  refine ⟨by push_cast; omega, by omega, ?_, trivial⟩
  exact (Nat.min_eq_left (le_trans hd' (daysInMonth_ge _ _))).symm

/-- Witness for C6 at cursor (2024, 5, 28). -/
theorem C6_twelve_months_eq_year_witness :
    (DatePickerPopupState.mk 2024 5 28 true).validCursor ∧
    (DatePickerPopupState.mk 2024 5 28 true).day ≤ 28 ∧
    addOneMonth^[12] (DatePickerPopupState.mk 2024 5 28 true) =
      addOneYear (DatePickerPopupState.mk 2024 5 28 true) :=
  ⟨by decide, by decide,
    C6_twelve_months_eq_year ⟨2024, 5, 28, true⟩ (by decide) (by decide)⟩

/-- Claim C8: within one popup interaction, the caller-owned selection is
overwritten only by the Save branch (which sets it to the date built from
the popup state's triple); every other interaction — cancel, arrows, combo
boxes, grid cells — leaves the selection unchanged. -/
theorem C8_selection_only_on_save (s : DatePickerPopupState) (sel : NaiveDate) :
    (∀ a : PopupAction, a ≠ PopupAction.save →
      ∃ r : DrawResult, drawStep a s sel = some r ∧ r.selection = sel ∧ r.saved = false) ∧
    (s.validCursor →
      drawStep PopupAction.save s sel =
        some ⟨s, ⟨s.year, s.month, s.day⟩, true, true⟩) := by
  constructor
  · intro a ha
    cases a <;> first
      | exact ⟨_, rfl, rfl, rfl⟩
      | exact absurd rfl ha
  · intro h
    unfold drawStep fromYmdOpt
    rw [if_pos (valid_mk.mpr h)]
    rfl

/-- Witness for C8: an arrow interaction keeps the selection, Save commits
the popup state. -/
theorem C8_selection_only_on_save_witness :
    (∃ r : DrawResult,
      drawStep PopupAction.arrowAddDay ⟨2024, 1, 31, true⟩ ⟨2024, 1, 15⟩ = some r ∧
      r.selection = ⟨2024, 1, 15⟩ ∧ r.saved = false) ∧
    drawStep PopupAction.save ⟨2024, 1, 31, true⟩ ⟨2024, 1, 15⟩ =
      some ⟨⟨2024, 1, 31, true⟩, ⟨2024, 1, 31⟩, true, true⟩ := by
  have h := C8_selection_only_on_save ⟨2024, 1, 31, true⟩ ⟨2024, 1, 15⟩
  exact ⟨h.1 PopupAction.arrowAddDay (by decide), h.2 (by decide)⟩


/-- Claim C1: for every year and every month in 1–12, `month_data` returns a
non-empty grid in which every week has exactly 7 days, consecutive grid days
step by exactly one calendar day, the first day is a Monday, the last day is
a Sunday lying within 7 days on or after the month's last day (so the walk
stopped at the first Monday strictly past it and the last row is closed),
and every day of the target month appears exactly once. -/
theorem C1_month_grid (y : Int) (m : Nat) (hm1 : 1 ≤ m) (hm2 : m ≤ 12) :
    ∃ ws : List Week, month_data y m = some ws ∧
      ws ≠ [] ∧
      (∀ w ∈ ws, w.days.length = 7) ∧
      List.Chain' (fun a b => b = succDate a) ((ws.map Week.days).flatten) ∧
      (∃ d0, ((ws.map Week.days).flatten).head? = some d0 ∧ weekdayNum d0 = 0) ∧
      (∃ dl, ((ws.map Week.days).flatten).getLast? = some dl ∧ weekdayNum dl = 6 ∧
        daysFromCivil ⟨y, m, daysInMonth y m⟩ ≤ daysFromCivil dl ∧
        daysFromCivil dl < daysFromCivil ⟨y, m, daysInMonth y m⟩ + 7) ∧
      (∀ dd, 1 ≤ dd → dd ≤ daysInMonth y m →
        ((ws.map Week.days).flatten).count ⟨y, m, dd⟩ = 1) := by
  have hge := daysInMonth_ge y m
  have hle := daysInMonth_le y m
  have hvF : (NaiveDate.mk y m 1).valid := valid_mk.mpr ⟨hm1, hm2, le_refl 1, by omega⟩
  have hw7 : weekdayNum (NaiveDate.mk y m 1) < 7 := weekdayNum_lt _
  have hvS : (gridStart y m).valid := predIter_valid hvF _
  have hwS : weekdayNum (gridStart y m) = 0 := weekdayNum_gridStart hvF
  refine ⟨weeksOf (gridStart y m) (numWeeks y m), month_data_eq hm1 hm2,
    ?_, ?_, ?_, ?_, ?_, ?_⟩
  · intro hnil
    have hlen := weeksOf_length (gridStart y m) (numWeeks y m)
    rw [hnil] at hlen
    unfold numWeeks at hlen
    simp at hlen
  · intro w hw
    obtain ⟨j, hj, rfl⟩ := weeksOf_mem hw
    simp [listDates_length]
  · rw [weeksOf_flatten]
    exact listDates_chain _ _
  · rw [weeksOf_flatten]
    refine ⟨gridStart y m, listDates_head ?_, hwS⟩
    unfold numWeeks
    omega
  · rw [weeksOf_flatten]
    have hpos : 1 ≤ 7 * numWeeks y m := by unfold numWeeks; omega
    refine ⟨succDate^[7 * numWeeks y m - 1] (gridStart y m), listDates_getLast hpos _,
      ?_, ?_, ?_⟩
    · rw [weekdayNum_iter hvS, hwS]
      unfold numWeeks
      omega
    · have hdl := daysFromCivil_iter hvS (7 * numWeeks y m - 1)
      have hgs := daysFromCivil_predIter hvF (weekdayNum (NaiveDate.mk y m 1))
      have hlast : daysFromCivil ⟨y, m, daysInMonth y m⟩ =
          daysFromCivil ⟨y, m, 1⟩ + ((daysInMonth y m - 1 : Nat) : Int) := by
        have e1 := daysFromCivil_iter hvF (daysInMonth y m - 1)
        rw [succIter_in_month (by omega), show (NaiveDate.mk y m (1 + (daysInMonth y m - 1)))
          = NaiveDate.mk y m (daysInMonth y m) by congr 1; omega] at e1
        exact e1
      unfold numWeeks at hdl ⊢
      unfold gridStart at hgs hdl ⊢
      omega
    · have hdl := daysFromCivil_iter hvS (7 * numWeeks y m - 1)
      have hgs := daysFromCivil_predIter hvF (weekdayNum (NaiveDate.mk y m 1))
      have hlast : daysFromCivil ⟨y, m, daysInMonth y m⟩ =
          daysFromCivil ⟨y, m, 1⟩ + ((daysInMonth y m - 1 : Nat) : Int) := by
        have e1 := daysFromCivil_iter hvF (daysInMonth y m - 1)
        rw [succIter_in_month (by omega), show (NaiveDate.mk y m (1 + (daysInMonth y m - 1)))
          = NaiveDate.mk y m (daysInMonth y m) by congr 1; omega] at e1
        exact e1
      unfold numWeeks at hdl ⊢
      unfold gridStart at hgs hdl ⊢
      omega
  · intro dd hdd1 hdd2
    rw [weeksOf_flatten]
    apply listDates_count_one hvS
    rw [listDates_mem]
    refine ⟨weekdayNum (NaiveDate.mk y m 1) + dd - 1, by unfold numWeeks; omega, ?_⟩
    have e0 : succDate^[weekdayNum (NaiveDate.mk y m 1) + dd - 1] (gridStart y m)
        = succDate^[dd - 1] (NaiveDate.mk y m 1) := by
      rw [show weekdayNum (NaiveDate.mk y m 1) + dd - 1
        = (dd - 1) + weekdayNum (NaiveDate.mk y m 1) by omega]
      unfold gridStart
      rw [Function.iterate_add_apply, succIter_predIter hvF]
    rw [e0, succIter_in_month (by omega)]
    congr 1
    omega

/-- Witness for C1 at July 2025. -/
theorem C1_month_grid_witness :
    (1 ≤ (7 : Nat) ∧ (7 : Nat) ≤ 12) ∧
    (∃ ws : List Week, month_data 2025 7 = some ws ∧
      ws ≠ [] ∧
      (∀ w ∈ ws, w.days.length = 7) ∧
      List.Chain' (fun a b => b = succDate a) ((ws.map Week.days).flatten) ∧
      (∃ d0, ((ws.map Week.days).flatten).head? = some d0 ∧ weekdayNum d0 = 0) ∧
      (∃ dl, ((ws.map Week.days).flatten).getLast? = some dl ∧ weekdayNum dl = 6 ∧
        daysFromCivil ⟨2025, 7, daysInMonth 2025 7⟩ ≤ daysFromCivil dl ∧
        daysFromCivil dl < daysFromCivil ⟨2025, 7, daysInMonth 2025 7⟩ + 7) ∧
      (∀ dd, 1 ≤ dd → dd ≤ daysInMonth 2025 7 →
        ((ws.map Week.days).flatten).count ⟨2025, 7, dd⟩ = 1)) :=
  ⟨⟨by decide, by decide⟩, C1_month_grid 2025 7 (by decide) (by decide)⟩

/-- Claim C2: from any popup state that denotes a valid calendar date, every
cursor operation of the popup — the six arrows, selecting a year or month
from a combo box, selecting a day from the offered 1..last_day range, and
clicking a calendar grid cell — again yields a state denoting a
constructible calendar date. -/
theorem C2_cursor_always_valid (s : DatePickerPopupState) (h : s.validCursor) :
    (subOneYear s).validCursor ∧ (subOneMonth s).validCursor ∧
    (subOneDay s).validCursor ∧ (addOneDay s).validCursor ∧
    (addOneMonth s).validCursor ∧ (addOneYear s).validCursor ∧
    (∀ y : Int, (setYear s y).validCursor) ∧
    (∀ m, 1 ≤ m → m ≤ 12 → (setMonth s m).validCursor) ∧
    (∀ d, 1 ≤ d → d ≤ s.last_day_of_month → (setDay s d).validCursor) ∧
    (∀ ws w d, month_data s.year s.month = some ws → w ∈ ws → d ∈ w.days →
      (clickDay s d).validCursor) ∧
    (∀ s' : DatePickerPopupState, s'.validCursor ↔
      (fromYmdOpt s'.year s'.month s'.day).isSome = true) := by
  refine ⟨valid_subOneYear h, valid_subOneMonth h, valid_subOneDay h, valid_addOneDay h,
    valid_addOneMonth h, valid_addOneYear h, valid_setYear h,
    fun m hm1 hm2 => valid_setMonth h hm1 hm2,
    fun d hd1 hd2 => valid_setDay h hd1 hd2, ?_, validCursor_iff_isSome⟩
  intro ws w d hws hw hd
  exact valid_clickDay (month_data_days_valid h.1 h.2.1 hws w hw d hd)

/-- Witness for C2 at cursor (2024, 2, 29). -/
theorem C2_cursor_always_valid_witness :
    (DatePickerPopupState.mk 2024 2 29 true).validCursor ∧
    ((subOneYear ⟨2024, 2, 29, true⟩).validCursor ∧
     (subOneMonth ⟨2024, 2, 29, true⟩).validCursor ∧
     (subOneDay ⟨2024, 2, 29, true⟩).validCursor ∧
     (addOneDay ⟨2024, 2, 29, true⟩).validCursor ∧
     (addOneMonth ⟨2024, 2, 29, true⟩).validCursor ∧
     (addOneYear ⟨2024, 2, 29, true⟩).validCursor ∧
     (∀ y : Int, (setYear ⟨2024, 2, 29, true⟩ y).validCursor) ∧
     (∀ m, 1 ≤ m → m ≤ 12 → (setMonth ⟨2024, 2, 29, true⟩ m).validCursor) ∧
     (∀ d, 1 ≤ d → d ≤ (DatePickerPopupState.mk 2024 2 29 true).last_day_of_month →
       (setDay ⟨2024, 2, 29, true⟩ d).validCursor) ∧
     (∀ ws w d, month_data 2024 2 = some ws → w ∈ ws → d ∈ w.days →
       (clickDay ⟨2024, 2, 29, true⟩ d).validCursor) ∧
     (∀ s' : DatePickerPopupState, s'.validCursor ↔
       (fromYmdOpt s'.year s'.month s'.day).isSome = true)) :=
  ⟨by decide, C2_cursor_always_valid ⟨2024, 2, 29, true⟩ (by decide)⟩

/-- Claim C7: the grid of February 2024 (a leap year) starts on Monday
2024-01-29, ends on Sunday 2024-03-03, and its rows carry the ISO week
numbers 5, 6, 7, 8 and 9. -/
theorem C7_leap_february_grid :
    (month_data 2024 2).map (fun ws => ws.map Week.number) = some [5, 6, 7, 8, 9] ∧
    (month_data 2024 2).map (fun ws => ((ws.map Week.days).flatten).head?) =
      some (some ⟨2024, 1, 29⟩) ∧
    (month_data 2024 2).map (fun ws => ((ws.map Week.days).flatten).getLast?) =
      some (some ⟨2024, 3, 3⟩) ∧
    weekdayNum ⟨2024, 1, 29⟩ = 0 ∧ weekdayNum ⟨2024, 3, 3⟩ = 6 := by decide

/-- Claim C10: every row of every grid carries the ISO-8601 week number of
its days — the number recorded from the row's Sunday, shared by all seven
days of the Monday-to-Sunday row — and that number lies in 1–53; at a year
boundary the number follows the ISO week-year, as in the December 2024 grid
whose final row carries week number 1. -/
theorem C10_iso_week_numbers :
    (∀ (y : Int) (m : Nat), 1 ≤ m → m ≤ 12 → ∀ ws, month_data y m = some ws →
      ∀ w ∈ ws, 1 ≤ w.number ∧ w.number ≤ 53 ∧
        (∃ sunday, w.days.getLast? = some sunday ∧ weekdayNum sunday = 6 ∧
          w.number = isoWeek sunday) ∧
        (∀ d ∈ w.days, isoWeek d = w.number)) ∧
    (month_data 2024 12).map (fun ws => ws.map Week.number) =
      some [48, 49, 50, 51, 52, 1] := by
  constructor
  · intro y m hm1 hm2 ws hws w hw
    rw [month_data_eq hm1 hm2] at hws
    have hws' : ws = weeksOf (gridStart y m) (numWeeks y m) := (Option.some.inj hws).symm
    subst hws'
    obtain ⟨j, hj, rfl⟩ := weeksOf_mem hw
    have hge := daysInMonth_ge y m
    have hvF : (NaiveDate.mk y m 1).valid := valid_mk.mpr ⟨hm1, hm2, le_refl 1, by omega⟩
    have hvS : (gridStart y m).valid := predIter_valid hvF _
    have hwS : weekdayNum (gridStart y m) = 0 := weekdayNum_gridStart hvF
    have hvj : (succDate^[7 * j] (gridStart y m)).valid := succIter_valid hvS _
    have hwj : weekdayNum (succDate^[7 * j] (gridStart y m)) = 0 := by
      rw [weekdayNum_iter hvS, hwS]
      omega
    have hv6 : (succDate^[6] (succDate^[7 * j] (gridStart y m))).valid :=
      succIter_valid hvj 6
    have hb := isoWeek_bounds hv6
    have hmod : isoWeek (succDate^[6] (succDate^[7 * j] (gridStart y m))) % 256 =
        isoWeek (succDate^[6] (succDate^[7 * j] (gridStart y m))) :=
      Nat.mod_eq_of_lt (by omega)
    refine ⟨?_, ?_, ?_, ?_⟩
    · show 1 ≤ isoWeek (succDate^[6] (succDate^[7 * j] (gridStart y m))) % 256
      omega
    · show isoWeek (succDate^[6] (succDate^[7 * j] (gridStart y m))) % 256 ≤ 53
      omega
    · refine ⟨succDate^[6] (succDate^[7 * j] (gridStart y m)), ?_, ?_, ?_⟩
      · show (listDates (succDate^[7 * j] (gridStart y m)) 7).getLast? = _
        rw [listDates_getLast (by omega) _]
      · rw [weekdayNum_iter hvj, hwj]
      · show isoWeek (succDate^[6] (succDate^[7 * j] (gridStart y m))) % 256 = _
        omega
    · intro d hd
      have hd' : d ∈ listDates (succDate^[7 * j] (gridStart y m)) 7 := hd
      obtain ⟨i, hi, rfl⟩ := listDates_mem.mp hd'
      show isoWeek (succDate^[i] (succDate^[7 * j] (gridStart y m))) =
        isoWeek (succDate^[6] (succDate^[7 * j] (gridStart y m))) % 256
      rw [hmod, isoWeek_row hvj hwj i (by omega), isoWeek_row hvj hwj 6 (by omega)]
  · decide

/-- Witness for C10 at December 2024. -/
theorem C10_iso_week_numbers_witness :
    (1 ≤ (12 : Nat) ∧ (12 : Nat) ≤ 12 ∧
      month_data 2024 12 = some (weeksOf (gridStart 2024 12) (numWeeks 2024 12))) ∧
    (∀ w ∈ weeksOf (gridStart 2024 12) (numWeeks 2024 12),
      1 ≤ w.number ∧ w.number ≤ 53 ∧
      (∃ sunday, w.days.getLast? = some sunday ∧ weekdayNum sunday = 6 ∧
        w.number = isoWeek sunday) ∧
      (∀ d ∈ w.days, isoWeek d = w.number)) :=
  ⟨⟨by decide, by decide, month_data_eq (by decide) (by decide)⟩,
    fun w hw => C10_iso_week_numbers.1 2024 12 (by decide) (by decide)
      (weeksOf (gridStart 2024 12) (numWeeks 2024 12))
      (month_data_eq (by decide) (by decide)) w hw⟩

theorem numWeeks_bounds (y : Int) (m : Nat) :
    weekdayNum (NaiveDate.mk y m 1) + daysInMonth y m ≤ 7 * numWeeks y m ∧
    7 * numWeeks y m ≤ weekdayNum (NaiveDate.mk y m 1) + daysInMonth y m + 6 := by
  have h := daysInMonth_ge y m
  unfold numWeeks
  omega

theorem gridWalk_year_bound {y : Int} {m : Nat} (hm1 : 1 ≤ m) (hm2 : m ≤ 12) :
    ∀ i, i ≤ 7 * numWeeks y m →
      y - 1 ≤ (succDate^[i] (gridStart y m)).year ∧
      (succDate^[i] (gridStart y m)).year ≤ y + 1 := by
  have hge := daysInMonth_ge y m
  have hle := daysInMonth_le y m
  have hvF : (NaiveDate.mk y m 1).valid := valid_mk.mpr ⟨hm1, hm2, le_refl 1, by omega⟩
  have hw7 : weekdayNum (NaiveDate.mk y m 1) < 7 := weekdayNum_lt _
  have hNub := numWeeks_bounds y m
  intro i hi
  by_cases hA : i < weekdayNum (NaiveDate.mk y m 1)
  · have hix : succDate^[i] (gridStart y m) =
        predDate^[weekdayNum (NaiveDate.mk y m 1) - i] (NaiveDate.mk y m 1) :=
      succIter_predIter_le hvF (by omega)
    rw [hix]
    rcases Nat.lt_or_ge m 2 with hm' | hm'
    · have hmeq : m = 1 := by omega
      subst hmeq
      rw [predIter_first_jan (by omega) (by omega)]
      refine ⟨?_, ?_⟩
      · show y - 1 ≤ y - 1
        omega
      · show y - 1 ≤ y + 1
        omega
    · rw [predIter_first hm' (by omega) (by omega)]
      refine ⟨?_, ?_⟩
      · show y - 1 ≤ y
        omega
      · show y ≤ y + 1
        omega
  · by_cases hB : i < weekdayNum (NaiveDate.mk y m 1) + daysInMonth y m
    · have hix : succDate^[i] (gridStart y m) =
          succDate^[i - weekdayNum (NaiveDate.mk y m 1)] (NaiveDate.mk y m 1) := by
        conv_lhs => rw [show i = (i - weekdayNum (NaiveDate.mk y m 1)) +
          weekdayNum (NaiveDate.mk y m 1) by omega]
        unfold gridStart
        rw [Function.iterate_add_apply, succIter_predIter hvF]
      rw [hix, succIter_in_month (by omega)]
      refine ⟨?_, ?_⟩
      · show y - 1 ≤ y
        omega
      · show y ≤ y + 1
        omega
    · have hix : succDate^[i] (gridStart y m) =
          succDate^[i - weekdayNum (NaiveDate.mk y m 1) - (daysInMonth y m - 1)]
            (NaiveDate.mk y m (daysInMonth y m)) := by
        conv_lhs => rw [show i = (i - weekdayNum (NaiveDate.mk y m 1) -
          (daysInMonth y m - 1)) + (daysInMonth y m - 1) +
          weekdayNum (NaiveDate.mk y m 1) by omega]
        unfold gridStart
        rw [Function.iterate_add_apply, succIter_predIter hvF, Function.iterate_add_apply,
          succIter_in_month (by omega : daysInMonth y m - 1 < daysInMonth y m)]
        congr 2
        omega
      rcases Nat.lt_or_ge m 12 with hm' | hm'
      · rw [hix, succIter_last hm1 (by omega) (by omega) (by omega)]
        refine ⟨?_, ?_⟩
        · show y - 1 ≤ y
          omega
        · show y ≤ y + 1
          omega
      · have hmeq : m = 12 := by omega
        subst hmeq
        have hd31 : daysInMonth y 12 = 31 := by simp [daysInMonth]
        rw [hd31] at hix
        rw [hix, succIter_last_dec (by omega) (by omega)]
        refine ⟨?_, ?_⟩
        · show y - 1 ≤ y + 1
          omega
        · show y + 1 ≤ y + 1
          omega

theorem grid_guard_stop {y : Int} {m : Nat} (hm1 : 1 ≤ m) (hm2 : m ≤ 12) :
    ¬(dateLt (succDate^[7 * numWeeks y m] (gridStart y m)) (NaiveDate.mk y m 1) ∨
      (succDate^[7 * numWeeks y m] (gridStart y m)).month = (NaiveDate.mk y m 1).month ∨
      weekdayNum (succDate^[7 * numWeeks y m] (gridStart y m)) ≠ 0) := by
  have hge := daysInMonth_ge y m
  have hle := daysInMonth_le y m
  have hvF : (NaiveDate.mk y m 1).valid := valid_mk.mpr ⟨hm1, hm2, le_refl 1, by omega⟩
  have hw7 : weekdayNum (NaiveDate.mk y m 1) < 7 := weekdayNum_lt _
  have hvS : (gridStart y m).valid := predIter_valid hvF _
  have hwS : weekdayNum (gridStart y m) = 0 := weekdayNum_gridStart hvF
  have hNub := numWeeks_bounds y m
  have hwd : weekdayNum (succDate^[7 * numWeeks y m] (gridStart y m)) = 0 := by
    rw [weekdayNum_iter hvS, hwS]
    omega
  have hix : succDate^[7 * numWeeks y m] (gridStart y m) =
      succDate^[7 * numWeeks y m - weekdayNum (NaiveDate.mk y m 1) - (daysInMonth y m - 1)]
        (NaiveDate.mk y m (daysInMonth y m)) := by
    conv_lhs => rw [show 7 * numWeeks y m =
      (7 * numWeeks y m - weekdayNum (NaiveDate.mk y m 1) - (daysInMonth y m - 1)) +
        (daysInMonth y m - 1) + weekdayNum (NaiveDate.mk y m 1) by omega]
    unfold gridStart
    rw [Function.iterate_add_apply, succIter_predIter hvF, Function.iterate_add_apply,
      succIter_in_month (by omega : daysInMonth y m - 1 < daysInMonth y m)]
    congr 2
    omega
  rcases Nat.lt_or_ge m 12 with hm' | hm'
  · rw [succIter_last hm1 (by omega) (by omega) (by omega)] at hix
    rw [hix] at hwd ⊢
    intro hcon
    rcases hcon with hcon | hcon | hcon
    · unfold dateLt at hcon
      simp only at hcon
      omega
    · simp only at hcon
      omega
    · exact hcon hwd
  · have hmeq : m = 12 := by omega
    subst hmeq
    have hd31 : daysInMonth y 12 = 31 := by simp [daysInMonth]
    rw [hd31] at hix
    rw [succIter_last_dec (by omega) (by omega)] at hix
    rw [hix] at hwd ⊢
    intro hcon
    rcases hcon with hcon | hcon | hcon
    · unfold dateLt at hcon
      simp only at hcon
      omega
    · simp only at hcon
      omega
    · exact hcon hwd

theorem monthDataLoopChecked_succ_eq (fuel : Nat) (start first : NaiveDate)
    (week : List NaiveDate) (weeks : List Week) :
    monthDataLoopChecked (fuel + 1) start first week weeks =
      if dateLt start first ∨ start.month = first.month ∨ weekdayNum start ≠ 0 then
        if weekdayNum start = 6 then
          (checkedSuccDate start).bind fun next =>
            monthDataLoopChecked fuel next first []
              (weeks ++ [⟨isoWeek start % 256, week ++ [start]⟩])
        else
          (checkedSuccDate start).bind fun next =>
            monthDataLoopChecked fuel next first (week ++ [start]) weeks
      else some weeks := rfl

theorem backToMondayChecked_eq {d : NaiveDate} (h : d.valid) {fuel : Nat}
    (hf : weekdayNum d < fuel)
    (hb : ∀ i, i < weekdayNum d →
      MIN_YEAR ≤ (predDate^[i + 1] d).year ∧ (predDate^[i + 1] d).year ≤ MAX_YEAR) :
    backToMondayChecked fuel d = some (backToMonday fuel d) := by
  induction fuel generalizing d with
  | zero => omega
  | succ fuel ih =>
      by_cases hw : weekdayNum d = 0
      · unfold backToMondayChecked backToMonday
        simp [hw]
      · have hb0 := hb 0 (by omega)
        simp only [Nat.zero_add, Function.iterate_one] at hb0
        have hpred : checkedPredDate d = some (predDate d) := by
          unfold checkedPredDate
          rw [if_pos hb0]
        unfold backToMondayChecked backToMonday
        rw [if_pos (by simpa using hw), if_pos (by simpa using hw), hpred,
          Option.some_bind]
        have hwp : weekdayNum (predDate d) = weekdayNum d - 1 := by
          have h1 := weekdayNum_pred h
          have h2 := weekdayNum_lt d
          omega
        apply ih (predDate_valid h) (by omega)
        intro i hi
        have hbi := hb (i + 1) (by omega)
        rwa [Function.iterate_succ_apply] at hbi

theorem monthDataLoopChecked_eq : ∀ (fuel : Nat) (start first : NaiveDate)
    (week : List NaiveDate) (weeks : List Week),
    (∀ i, i < fuel →
      (∀ j, j ≤ i → (dateLt (succDate^[j] start) first ∨
        (succDate^[j] start).month = first.month ∨ weekdayNum (succDate^[j] start) ≠ 0)) →
      MIN_YEAR ≤ (succDate^[i + 1] start).year ∧ (succDate^[i + 1] start).year ≤ MAX_YEAR) →
    monthDataLoopChecked fuel start first week weeks =
      some (monthDataLoop fuel start first week weeks) := by
  intro fuel
  induction fuel with
  | zero => intro start first week weeks _; rfl
  | succ fuel ih =>
      intro start first week weeks H
      by_cases hg : (dateLt start first ∨ start.month = first.month ∨ weekdayNum start ≠ 0)
      · have hg0 : ∀ j, j ≤ 0 → (dateLt (succDate^[j] start) first ∨
            (succDate^[j] start).month = first.month ∨
            weekdayNum (succDate^[j] start) ≠ 0) := by
          intro j hj
          have hj0 : j = 0 := by omega
          subst hj0
          simpa using hg
        have hH0 := H 0 (by omega) hg0
        simp only [Nat.zero_add, Function.iterate_one] at hH0
        have hsucc : checkedSuccDate start = some (succDate start) := by
          unfold checkedSuccDate
          rw [if_pos hH0]
        have hshift : ∀ i, i < fuel →
            (∀ j, j ≤ i → (dateLt (succDate^[j] (succDate start)) first ∨
              (succDate^[j] (succDate start)).month = first.month ∨
              weekdayNum (succDate^[j] (succDate start)) ≠ 0)) →
            MIN_YEAR ≤ (succDate^[i + 1] (succDate start)).year ∧
              (succDate^[i + 1] (succDate start)).year ≤ MAX_YEAR := by
          intro i hi hgj
          have hHi := H (i + 1) (by omega) ?_
          · rwa [Function.iterate_succ_apply] at hHi
          · intro j hj
            cases j with
            | zero => simpa using hg
            | succ j' =>
                have hgj' := hgj j' (by omega)
                rwa [← Function.iterate_succ_apply] at hgj'
        by_cases hw : weekdayNum start = 6
        · rw [monthDataLoopChecked_succ_eq, monthDataLoop_succ_eq, if_pos hg, if_pos hg,
            if_pos hw, if_pos hw, hsucc, Option.some_bind]
          exact ih (succDate start) first [] _ hshift
        · rw [monthDataLoopChecked_succ_eq, monthDataLoop_succ_eq, if_pos hg, if_pos hg,
            if_neg hw, if_neg hw, hsucc, Option.some_bind]
          exact ih (succDate start) first (week ++ [start]) weeks hshift
      · rw [monthDataLoopChecked_succ_eq, monthDataLoop_succ_eq, if_neg hg, if_neg hg]

theorem month_dataChecked_eq {y : Int} {m : Nat} (hm1 : 1 ≤ m) (hm2 : m ≤ 12)
    (hy1 : MIN_YEAR < y) (hy2 : y < MAX_YEAR) :
    month_dataChecked y m = month_data y m := by
  have hge := daysInMonth_ge y m
  have hvF : (NaiveDate.mk y m 1).valid := valid_mk.mpr ⟨hm1, hm2, le_refl 1, by omega⟩
  have hw7 : weekdayNum (NaiveDate.mk y m 1) < 7 := weekdayNum_lt _
  unfold month_dataChecked month_data fromYmdOptChecked fromYmdOpt
  rw [if_pos ⟨hvF, le_of_lt hy1, le_of_lt hy2⟩, if_pos hvF]
  rw [Option.some_bind, Option.map_some']
  have hbw : backToMondayChecked 7 (NaiveDate.mk y m 1) =
      some (backToMonday 7 (NaiveDate.mk y m 1)) := by
    apply backToMondayChecked_eq hvF (by omega)
    intro i hi
    rcases Nat.lt_or_ge m 2 with hm' | hm'
    · have hmeq : m = 1 := by omega
      subst hmeq
      rw [predIter_first_jan (by omega) (by omega)]
      refine ⟨?_, ?_⟩
      · show MIN_YEAR ≤ y - 1
        omega
      · show y - 1 ≤ MAX_YEAR
        omega
    · rw [predIter_first hm' (by omega) (by omega)]
      refine ⟨?_, ?_⟩
      · show MIN_YEAR ≤ y
        omega
      · show y ≤ MAX_YEAR
        omega
  rw [hbw, Option.some_bind]
  rw [backToMonday_eq hvF (by omega)]
  apply monthDataLoopChecked_eq
  intro i hi hgall
  by_cases hiN : i < 7 * numWeeks y m
  · have hb := @gridWalk_year_bound y m hm1 hm2 (i + 1) (by omega)
    obtain ⟨hb1, hb2⟩ := hb
    unfold gridStart at hb1 hb2
    exact ⟨by omega, by omega⟩
  · exfalso
    have hcon := hgall (7 * numWeeks y m) (by omega)
    have hstop := @grid_guard_stop y m hm1 hm2
    unfold gridStart at hstop
    exact hstop hcon

/-- Counterexample to claim C9 as stated: the popup state (262142, 12, 31)
— exactly the cursor seeded from `NaiveDate::MAX` — satisfies the
cursor-validity precondition (month 12, day 31 is the month's last valid
day, and the date is constructible), yet `month_data(262142, 12)` reaches
the `checked_add_signed(Duration::days(1)).unwrap()` of the walk past
`NaiveDate::MAX` (src/lib.rs line 33), which panics (`none` here). -/
theorem C9_expects_unreachable_counterexample :
    (DatePickerPopupState.mk 262142 12 31 true).validCursor ∧
    (DatePickerPopupState.mk 262142 12 31 true).day =
      (DatePickerPopupState.mk 262142 12 31 true).last_day_of_month ∧
    fromYmdOptChecked 262142 12 31 = some ⟨262142, 12, 31⟩ ∧
    month_dataChecked 262142 12 = none := by decide

/-- Claim C9 (amended): under the cursor-validity precondition and with the
cursor's year strictly inside chrono's representable range
(MIN_YEAR < year < MAX_YEAR), every calendar-date construction in the code
succeeds, so the expect/unwrap failure branches are unreachable:
`from_ymd_opt(year, month, 1)` (used by `month_data` and
`last_day_of_month`), the Save construction
`from_ymd_opt(year, month, day)`, and every checked day step of
`month_data`'s walk — whose grid moreover agrees with the unbounded-year
model, and every day of which is constructible. -/
theorem C9_expects_unreachable (s : DatePickerPopupState) (h : s.validCursor)
    (hy1 : MIN_YEAR < s.year) (hy2 : s.year < MAX_YEAR) :
    fromYmdOptChecked s.year s.month 1 = some ⟨s.year, s.month, 1⟩ ∧
    fromYmdOptChecked s.year s.month s.day = some ⟨s.year, s.month, s.day⟩ ∧
    (∃ ws, month_dataChecked s.year s.month = some ws ∧
      month_data s.year s.month = some ws ∧
      ∀ w ∈ ws, ∀ d ∈ w.days,
        (fromYmdOptChecked d.year d.month d.day).isSome = true) := by
  obtain ⟨h1, h2, h3, h4⟩ := h
  have hge := daysInMonth_ge s.year s.month
  refine ⟨?_, ?_, ?_⟩
  · unfold fromYmdOptChecked
    rw [if_pos ⟨valid_mk.mpr ⟨h1, h2, le_refl 1, by omega⟩, le_of_lt hy1, le_of_lt hy2⟩]
  · unfold fromYmdOptChecked
    rw [if_pos ⟨valid_mk.mpr ⟨h1, h2, h3, h4⟩, le_of_lt hy1, le_of_lt hy2⟩]
  · refine ⟨weeksOf (gridStart s.year s.month) (numWeeks s.year s.month), ?_, ?_, ?_⟩
    · rw [month_dataChecked_eq h1 h2 hy1 hy2]
      exact month_data_eq h1 h2
    · exact month_data_eq h1 h2
    · intro w hw d hd
      have hv := month_data_days_valid h1 h2 (month_data_eq h1 h2) w hw d hd
      obtain ⟨j, hj, rfl⟩ := weeksOf_mem hw
      have hd' : d ∈ listDates (succDate^[7 * j] (gridStart s.year s.month)) 7 := hd
      obtain ⟨i, hi, rfl⟩ := listDates_mem.mp hd'
      have hij : succDate^[i] (succDate^[7 * j] (gridStart s.year s.month)) =
          succDate^[i + 7 * j] (gridStart s.year s.month) :=
        (Function.iterate_add_apply _ _ _ _).symm
      have hb := @gridWalk_year_bound s.year s.month h1 h2 (i + 7 * j) (by
        have := numWeeks_bounds s.year s.month
        omega)
      rw [← hij] at hb
      obtain ⟨hb1, hb2⟩ := hb
      unfold fromYmdOptChecked
      rw [if_pos ⟨hv, by omega, by omega⟩]
      rfl

/-- Witness for the amended C9 at cursor (2024, 2, 29). -/
theorem C9_expects_unreachable_witness :
    (DatePickerPopupState.mk 2024 2 29 true).validCursor ∧
    MIN_YEAR < (2024 : Int) ∧ (2024 : Int) < MAX_YEAR ∧
    (fromYmdOptChecked 2024 2 1 = some ⟨2024, 2, 1⟩ ∧
     fromYmdOptChecked 2024 2 29 = some ⟨2024, 2, 29⟩ ∧
     (∃ ws, month_dataChecked 2024 2 = some ws ∧
       month_data 2024 2 = some ws ∧
       ∀ w ∈ ws, ∀ d ∈ w.days,
         (fromYmdOptChecked d.year d.month d.day).isSome = true)) :=
  ⟨by decide, by decide, by decide,
    C9_expects_unreachable ⟨2024, 2, 29, true⟩ (by decide) (by decide) (by decide)⟩

end DatePicker
